import Mathlib

/-! Point layer of the level editor.

A shallow embedding of `src/game/level/level_editor/point_layer.c`.

* `Dynarray` values are lists; `dynarray_push` appends and
  `dynarray_delete_at` removes one index and shifts the tail down.
* `float` is an arbitrary type `F`.  Everything that the C file calls but
  does not define (float comparison, `vec_sub`, `vec_length`,
  `camera_map_screen`, `hexstr`, the conversion done by a `%f` directive)
  is a field of `Ext`, so every theorem holds for all of them.  What only
  point_layer_render calls (the triangle and matrix functions,
  `color_invert`, `camera_fill_triangle`) is a field of `Gfx`.
* point_layer_render returns, next to its int, the camera after the call and
  the list of the `camera_fill_triangle` calls it made.
* `rand()` and the indeterminate initial contents of automatic variables are
  inputs of the function that reads them; so is the outcome of each
  allocation of the loader.
* A `size_t` count is a natural number; the conversion `(int)` of a count is
  `int_of_size`, which wraps at 32 bits.
* `sscanf` is modelled on C strings (lists of characters without the
  terminator) for the two formats the loader uses.
-/

namespace Nothing

/-! ## Data model -/

/-- The struct behind both `Point` and `Vec2f`: two floats. -/
structure Vec (F : Type) where
  x : F
  y : F
deriving DecidableEq, Repr

/-- In the C headers `Point` is another name of the vector struct. -/
abbrev Point (F : Type) : Type := Vec F

/-- The constructor function `vec(x, y)`. -/
def vec {F : Type} (x y : F) : Point F := ⟨x, y⟩

/-- What point_layer.c uses and does not define. -/
structure Ext (F Color Camera : Type) where
  /-- The macro `ID_MAX_SIZE`, the size of an identifier buffer. -/
  ID_MAX_SIZE : Nat
  /-- An array of `ID_MAX_SIZE` chars is declared, so the size is positive. -/
  ID_MAX_SIZE_pos : 0 < ID_MAX_SIZE
  /-- The value of a float literal with an integer value (`10.0f`, `15.0f`). -/
  flit : Nat → F
  /-- The comparison `a < b` on floats. -/
  flt : F → F → Bool
  /-- The function `vec_sub`. -/
  vec_sub : Vec F → Vec F → Vec F
  /-- The function `vec_length`. -/
  vec_length : Vec F → F
  /-- The function `camera_map_screen`, screen pixel to world coordinate. -/
  camera_map_screen : Camera → Int → Int → Point F
  /-- The function `hexstr`, applied to the C string in its argument. -/
  hexstr : List Char → Color
  /-- The conversion of one `%f` directive by the C library, on input that
  starts with a character that is not white space: the value and the
  unread rest, or `none` on a matching failure. -/
  scan_float : List Char → Option (F × List Char)

/-- The struct `PointLayer`; the lifetime tracker `lt` carries no data. -/
structure PointLayer (F Color : Type) where
  points : List (Point F)
  colors : List Color
  ids : List (List Char)
  selected : Int
deriving DecidableEq

/-- The fields of `SDL_MouseButtonEvent` that the layer reads. -/
structure SDL_MouseButtonEvent where
  type : Nat
  button : Nat
  x : Int
  y : Int
deriving DecidableEq, Repr

/-- The fields of `SDL_KeyboardEvent` that the layer reads;
`sym` is `keysym.sym`. -/
structure SDL_KeyboardEvent where
  type : Nat
  sym : Int
deriving DecidableEq, Repr

/-- SDL2 event type of a mouse button press. -/
def SDL_MOUSEBUTTONDOWN : Nat := 0x401

/-- SDL2 number of the left mouse button. -/
def SDL_BUTTON_LEFT : Nat := 1

/-- SDL2 event type of a key press. -/
def SDL_KEYDOWN : Nat := 0x300

/-- SDL2 key code of the delete key. -/
def SDLK_DELETE : Int := 127

/-! ## Dynarray -/

/-- Modelled from the spec: `dynarray_count` of dynarray.h, the number of
elements of a growable sequence. -/
def dynarray_count {α : Type} (d : List α) : Nat := d.length

/-- Modelled from the spec: `dynarray_push` of dynarray.h, append at the
end of a growable sequence. -/
def dynarray_push {α : Type} (d : List α) (a : α) : List α := d ++ [a]

/-- Modelled from the spec: `dynarray_delete_at` of dynarray.h, index-based
deletion that shifts the trailing elements down. -/
def dynarray_delete_at {α : Type} (d : List α) (index : Nat) : List α :=
  d.eraseIdx index

/-- The conversion `(int) c` of a `size_t` to a 32-bit `int`:
reduction modulo `2^32` into the range `[-2^31, 2^31)`. -/
def int_of_size (c : Nat) : Int := Int.bmod (c : Int) (2 ^ 32)

/-! ## Mouse and keyboard handlers -/

/-- The macro `POINT_LAYER_ELEMENT_RADIUS`, `10.0f`. -/
def POINT_LAYER_ELEMENT_RADIUS {F Color Camera : Type} (E : Ext F Color Camera) : F :=
  E.flit 10

/-- The loop condition
`vec_length(vec_sub(points[i], point)) < POINT_LAYER_ELEMENT_RADIUS`. -/
def in_radius {F Color Camera : Type} (E : Ext F Color Camera)
    (q point : Point F) : Bool :=
  E.flt (E.vec_length (E.vec_sub q point)) (POINT_LAYER_ELEMENT_RADIUS E)

/-- The loop `for (int i = 0; i < n; ++i)` of point_layer_mouse_button over
the elements `points[i], points[i+1], ...` still to visit: the index of the
first one in the radius, or `none` when the loop runs to its end. -/
def hit_scan {F Color Camera : Type} (E : Ext F Color Camera) (point : Point F) :
    List (Point F) → Nat → Option Nat
  | [], _ => none
  | q :: qs, i => if in_radius E q point then some i else hit_scan E point qs (i + 1)

/-- The local buffer `id` after the loop that fills it: bytes
`0 .. ID_MAX_SIZE - 2` are `'a' + rand() % ('z' - 'a' + 1)`, the last byte is
never written and keeps the indeterminate content `stack` of the buffer.
`rand i` is the value of the call of `rand()` number `i`. -/
def fresh_id {F Color Camera : Type} (E : Ext F Color Camera)
    (rand : Nat → Nat) (stack : Nat → Char) : List Char :=
  (List.range E.ID_MAX_SIZE).map fun i =>
    if i < E.ID_MAX_SIZE - 1 then Char.ofNat ('a'.toNat + rand i % ('z'.toNat - 'a'.toNat + 1))
    else stack i

/-- The function `point_layer_mouse_button`: the returned int and the layer
after the call. -/
def point_layer_mouse_button {F Color Camera : Type} (E : Ext F Color Camera)
    (point_layer : PointLayer F Color) (event : SDL_MouseButtonEvent)
    (camera : Camera) (color : Color) (rand : Nat → Nat) (stack : Nat → Char) :
    Int × PointLayer F Color :=
  if event.type = SDL_MOUSEBUTTONDOWN ∧ event.button = SDL_BUTTON_LEFT then
    let n : Int := int_of_size (dynarray_count point_layer.points)
    let point := E.camera_map_screen camera event.x event.y
    match hit_scan E point (point_layer.points.take n.toNat) 0 with
    | some i => (0, { point_layer with selected := (i : Int) })
    | none =>
      let id := fresh_id E rand stack
      (0, { point_layer with
              points := dynarray_push point_layer.points point
              colors := dynarray_push point_layer.colors color
              ids := dynarray_push point_layer.ids id })
  else (0, point_layer)

/-- The function `point_layer_keyboard`: the returned int and the layer after
the call. -/
def point_layer_keyboard {F Color : Type}
    (point_layer : PointLayer F Color) (event : SDL_KeyboardEvent) :
    Int × PointLayer F Color :=
  if event.type = SDL_KEYDOWN ∧ event.sym = SDLK_DELETE then
    let deleted : PointLayer F Color :=
      if 0 ≤ point_layer.selected ∧
          point_layer.selected < int_of_size (dynarray_count point_layer.points) then
        { point_layer with
            points := dynarray_delete_at point_layer.points point_layer.selected.toNat
            colors := dynarray_delete_at point_layer.colors point_layer.selected.toNat
            ids := dynarray_delete_at point_layer.ids point_layer.selected.toNat }
      else point_layer
    (0, { deleted with selected := -1 })
  else (0, point_layer)

/-- The function `point_layer_count`. -/
def point_layer_count {F Color : Type} (point_layer : PointLayer F Color) : Nat :=
  dynarray_count point_layer.points

/-! ## The loader -/

/-- The terminator of a C string. -/
def NUL : Char := Char.ofNat 0

/-- The C library's `isspace` in the "C" locale. -/
def isspace (c : Char) : Bool :=
  c.toNat = 32 || (9 ≤ c.toNat && c.toNat ≤ 13)

/-- The C library's `isdigit`. -/
def isdigit (c : Char) : Bool :=
  '0'.toNat ≤ c.toNat && c.toNat ≤ '9'.toNat

/-- The C string held in a char buffer: the bytes before the first
terminator. -/
def cstr (buf : List Char) : List Char := buf.takeWhile fun c => c != NUL

/-- A char buffer after a string and its terminator are written at its
start, for a string that fits the buffer together with its terminator.
`sscanf_point` stores no other string: a token that does not fit is a write
past the end of the array and is not given a result. -/
def store_str (buf s : List Char) : List Char :=
  s ++ NUL :: buf.drop (s.length + 1)

/-- White space skipped at the start of a conversion directive. -/
def skip_space (input : List Char) : List Char := input.dropWhile isspace

/-- The value of a string of decimal digits. -/
def decimal_value (ds : List Char) : Nat :=
  ds.foldl (fun acc c => 10 * acc + (c.toNat - '0'.toNat)) 0

/-- The result of `strtoul` on a sign and a magnitude, for a 64-bit
`unsigned long`: out of range gives `ULONG_MAX`, a minus sign negates
modulo `2^64`. -/
def strtoul_value (neg : Bool) (v : Nat) : Nat :=
  if 2 ^ 64 ≤ v then 2 ^ 64 - 1
  else if neg then (2 ^ 64 - v) % 2 ^ 64
  else v

/-- The value `EOF` of stdio.h. -/
def EOF : Int := -1

/-- The call `sscanf(line, "%lu", &count)` on a C string: the returned int
and `count` after the call.  End of input before the conversion is an input
failure (`EOF`); a first character that starts no number is a matching
failure (0 conversions, `count` untouched). -/
def sscanf_lu (line : List Char) (count : Nat) : Int × Nat :=
  match skip_space line with
  | [] => (EOF, count)
  | c :: cs =>
    let neg : Bool := c = '-'
    let body : List Char := if c = '-' ∨ c = '+' then cs else c :: cs
    let ds := body.takeWhile isdigit
    if ds = [] then (0, count) else (1, strtoul_value neg (decimal_value ds))

/-- One `%<width>s` directive: the token read and the unread rest, or `none`
when the input ends before a character that is not white space. -/
def scan_str (width : Nat) (input : List Char) : Option (List Char × List Char) :=
  match skip_space input with
  | [] => none
  | c :: cs =>
    let tok := ((c :: cs).takeWhile fun c => !isspace c).take width
    some (tok, (c :: cs).drop tok.length)

/-- One `%f` directive: white space is skipped, end of input is an input
failure, otherwise the library's conversion decides. -/
def scan_f {F Color Camera : Type} (E : Ext F Color Camera) (input : List Char) :
    Option (F × List Char) :=
  match skip_space input with
  | [] => none
  | c :: cs => E.scan_float (c :: cs)

/-- The automatic variables `color_name`, `id`, `x`, `y` of the loader. -/
structure Locals (F : Type) where
  color_name : List Char
  id : List Char
  x : F
  y : F

/-- The call `sscanf(line, "%" STRINGIFY(ID_MAX_SIZE) "s%f%f%6s", id, &x, &y,
color_name)` on a C string: the returned int and the four variables after
the call.  `STRINGIFY(ID_MAX_SIZE)` is the decimal text of `ID_MAX_SIZE`, the
field width of the identifier token.  The directives run in order; the first
one that fails ends the call, which then returns the number of conversions
done, or `EOF` when the input ended before the first conversion.

The result is `none` when the identifier token has `ID_MAX_SIZE` characters:
its terminator is then written past the end of `char id[ID_MAX_SIZE]`, for
which C defines no behaviour.  The colour token has at most 6 characters and
always fits `char color_name[7]`. -/
def sscanf_point {F Color Camera : Type} (E : Ext F Color Camera)
    (line : List Char) (v : Locals F) : Option (Int × Locals F) :=
  match scan_str E.ID_MAX_SIZE line with
  | none => some (EOF, v)
  | some (tok, r1) =>
    if E.ID_MAX_SIZE < tok.length + 1 then none
    else
      let v1 := { v with id := store_str v.id tok }
      match scan_f E r1 with
      | none => some (1, v1)
      | some (x, r2) =>
        let v2 := { v1 with x := x }
        match scan_f E r2 with
        | none => some (2, v2)
        | some (y, r3) =>
          let v3 := { v2 with y := y }
          match scan_str 6 r3 with
          | none => some (3, v3)
          | some (ctok, _) =>
            some (4, { v3 with color_name := store_str v3.color_name ctok })

/-- Modelled from the spec: `line_stream_next` of system/line_stream.h, the
"next line" of a stream of lines: the line as a C string and the rest of the
stream, or `none` (the C `NULL`) when no line is left. -/
def line_stream_next (line_stream : List (List Char)) :
    Option (List Char) × List (List Char) :=
  match line_stream with
  | [] => (none, [])
  | line :: rest => (some line, rest)

/-- What a call of the loader comes to. -/
inductive LoadResult (F Color : Type) where
  /-- A layer is returned. -/
  | layer (point_layer : PointLayer F Color)
  /-- `NULL` is returned. -/
  | null
  /-- The loader reaches a step for which C defines no behaviour: the call
  `sscanf(NULL, ...)`, or a write of sscanf past the end of `id`. -/
  | undefined
deriving DecidableEq

/-- Whether each of the four allocations of the loader returns memory. -/
structure Alloc where
  point_layer : Bool
  points : Bool
  colors : Bool
  ids : Bool
deriving DecidableEq, Repr

/-- The indeterminate initial contents of the loader's automatic variables. -/
structure Stack (F : Type) where
  color_name : Nat → Char
  id : Nat → Char
  x : F
  y : F

/-- The loop `for (size_t i = 0; i < count; ++i)` of the loader with `count`
iterations left. -/
def load_points {F Color Camera : Type} (E : Ext F Color Camera) :
    Nat → List (List Char) → Locals F → PointLayer F Color → LoadResult F Color
  | 0, _, _, point_layer => .layer point_layer
  | count + 1, line_stream, v, point_layer =>
    match line_stream_next line_stream with
    | (none, _) => .undefined
    | (some line, rest) =>
      match sscanf_point E line v with
      | none => .undefined
      | some r =>
        if r.1 < 0 then .null
        else
          let color := E.hexstr (cstr r.2.color_name)
          let point := vec r.2.x r.2.y
          load_points E count rest r.2
            { point_layer with
                colors := dynarray_push point_layer.colors color
                points := dynarray_push point_layer.points point
                ids := dynarray_push point_layer.ids (r.2.id.take E.ID_MAX_SIZE) }

/-- The function `create_point_layer_from_line_stream`. -/
def create_point_layer_from_line_stream {F Color Camera : Type} (E : Ext F Color Camera)
    (alloc : Alloc) (stack : Stack F) (line_stream : List (List Char)) :
    LoadResult F Color :=
  if alloc.point_layer = false then .null
  else if alloc.points = false then .null
  else if alloc.colors = false then .null
  else if alloc.ids = false then .null
  else
    let point_layer : PointLayer F Color := ⟨[], [], [], -1⟩
    match line_stream_next line_stream with
    | (none, _) => .undefined
    | (some line, rest) =>
      let r := sscanf_lu line 0
      if r.1 = EOF then .null
      else
        load_points E r.2 rest
          { color_name := (List.range 7).map stack.color_name
            id := (List.range E.ID_MAX_SIZE).map stack.id
            x := stack.x
            y := stack.y }
          point_layer

/-- One call made by the editor on the layer, with everything the call
receives from outside. -/
inductive Input (Color Camera : Type) where
  | mouse (event : SDL_MouseButtonEvent) (camera : Camera) (color : Color)
      (rand : Nat → Nat) (stack : Nat → Char)
  | keyboard (event : SDL_KeyboardEvent)

/-- The layer after one call. -/
def apply_input {F Color Camera : Type} (E : Ext F Color Camera)
    (s : PointLayer F Color) : Input Color Camera → PointLayer F Color
  | .mouse event camera color rand stack =>
      (point_layer_mouse_button E s event camera color rand stack).2
  | .keyboard event => (point_layer_keyboard s event).2

/-- The layer after a finite sequence of calls. -/
def run_inputs {F Color Camera : Type} (E : Ext F Color Camera)
    (s : PointLayer F Color) (inputs : List (Input Color Camera)) : PointLayer F Color :=
  inputs.foldl (apply_input E) s

/-- The three sequences of a layer have the same length. -/
def Lockstep {F Color : Type} (s : PointLayer F Color) : Prop :=
  s.points.length = s.colors.length ∧ s.colors.length = s.ids.length

/-- The selection is "none" or an index of an existing point. -/
def SelectionValid {F Color : Type} (s : PointLayer F Color) : Prop :=
  s.selected = -1 ∨ (0 ≤ s.selected ∧ s.selected < (point_layer_count s : Int))

/-- A left-button press, the only mouse event the layer reacts to. -/
def IsLeftPress (event : SDL_MouseButtonEvent) : Prop :=
  event.type = SDL_MOUSEBUTTONDOWN ∧ event.button = SDL_BUTTON_LEFT

/-- A press of the delete key, the only key event the layer reacts to. -/
def IsDeletePress (event : SDL_KeyboardEvent) : Prop :=
  event.type = SDL_KEYDOWN ∧ event.sym = SDLK_DELETE

instance {F Color : Type} (s : PointLayer F Color) : Decidable (Lockstep s) := by
  unfold Lockstep; infer_instance

instance {F Color : Type} (s : PointLayer F Color) : Decidable (SelectionValid s) := by
  unfold SelectionValid; infer_instance

instance (event : SDL_MouseButtonEvent) : Decidable (IsLeftPress event) := by
  unfold IsLeftPress; infer_instance

instance (event : SDL_KeyboardEvent) : Decidable (IsDeletePress event) := by
  unfold IsDeletePress; infer_instance

/-! ## The renderer -/

/-- What point_layer_render uses and does not define: the triangle and
matrix functions, `color_invert`, and `camera_fill_triangle`, which returns
its int and leaves the camera in a new state. -/
structure Gfx (F Color Camera Triangle Mat : Type) where
  /-- The function `equilateral_triangle`. -/
  equilateral_triangle : Triangle
  /-- The function `triangle_mat3x3_product`. -/
  triangle_mat3x3_product : Triangle → Mat → Triangle
  /-- The function `mat3x3_product`. -/
  mat3x3_product : Mat → Mat → Mat
  /-- The function `trans_mat`. -/
  trans_mat : F → F → Mat
  /-- The function `scale_mat`. -/
  scale_mat : F → Mat
  /-- The function `color_invert`. -/
  color_invert : Color → Color
  /-- The function `camera_fill_triangle`. -/
  camera_fill_triangle : Camera → Triangle → Color → Int × Camera

/-- One call of `camera_fill_triangle` as it happened: the triangle and the
colour passed, and the int returned. -/
structure FillCall (Triangle Color : Type) where
  triangle : Triangle
  color : Color
  result : Int
deriving DecidableEq, Repr

/-- The marker triangle of a point:
`triangle_mat3x3_product(equilateral_triangle(),
mat3x3_product(trans_mat(p.x, p.y), scale_mat(scale)))`. -/
def marker {F Color Camera Triangle Mat : Type} (G : Gfx F Color Camera Triangle Mat)
    (p : Point F) (scale : F) : Triangle :=
  G.triangle_mat3x3_product G.equilateral_triangle
    (G.mat3x3_product (G.trans_mat p.x p.y) (G.scale_mat scale))

/-- The body of the loop of point_layer_render for the index `i`: whether the
loop goes on (`false` is the `return -1`), the camera after the body and the
fill calls made, in order.  `none` when `points[i]` or `colors[i]` is read
past the end of its array. -/
def render_point {F Color Camera Triangle Mat : Type} (E : Ext F Color Camera)
    (G : Gfx F Color Camera Triangle Mat) (point_layer : PointLayer F Color)
    (i : Nat) (camera : Camera) :
    Option (Bool × Camera × List (FillCall Triangle Color)) :=
  match point_layer.points[i]?, point_layer.colors[i]? with
  | some p, some c =>
    let t := marker G p (POINT_LAYER_ELEMENT_RADIUS E)
    if (i : Int) = point_layer.selected then
      let t0 := marker G p (E.flit 15)
      let r0 := G.camera_fill_triangle camera t0 (G.color_invert c)
      if r0.1 < 0 then some (false, r0.2, [⟨t0, G.color_invert c, r0.1⟩])
      else
        let r := G.camera_fill_triangle r0.2 t c
        some (decide (¬ r.1 < 0), r.2, [⟨t0, G.color_invert c, r0.1⟩, ⟨t, c, r.1⟩])
    else
      let r := G.camera_fill_triangle camera t c
      some (decide (¬ r.1 < 0), r.2, [⟨t, c, r.1⟩])
  | _, _ => none

/-- The loop `for (int i = 0; i < n; ++i)` of point_layer_render over the
indices still to visit, and the `return 0` after it: the returned int, the
camera at the return and the fill calls made, in order. -/
def render_loop {F Color Camera Triangle Mat : Type} (E : Ext F Color Camera)
    (G : Gfx F Color Camera Triangle Mat) (point_layer : PointLayer F Color) :
    List Nat → Camera → Option (Int × Camera × List (FillCall Triangle Color))
  | [], camera => some (0, camera, [])
  | i :: rest, camera =>
    match render_point E G point_layer i camera with
    | none => none
    | some (false, camera1, fills) => some (-1, camera1, fills)
    | some (true, camera1, fills) =>
      match render_loop E G point_layer rest camera1 with
      | none => none
      | some (ret, camera2, later) => some (ret, camera2, fills ++ later)

/-- What a call of point_layer_render leaves behind: the returned int, the
layer and the camera after the call, and the fill calls made, in order. -/
structure Rendered (F Color Camera Triangle : Type) where
  ret : Int
  point_layer : PointLayer F Color
  camera : Camera
  fills : List (FillCall Triangle Color)

/-- The function `point_layer_render`.  The layer is passed as a pointer to
const and no statement writes to it.  `none` when an array is read past its
end. -/
def point_layer_render {F Color Camera Triangle Mat : Type} (E : Ext F Color Camera)
    (G : Gfx F Color Camera Triangle Mat) (point_layer : PointLayer F Color)
    (camera : Camera) : Option (Rendered F Color Camera Triangle) :=
  let n : Int := int_of_size (dynarray_count point_layer.points)
  (render_loop E G point_layer (List.range n.toNat) camera).map fun out =>
    ⟨out.1, point_layer, out.2.1, out.2.2⟩

/-- The fills that the render contract asks for the point of index `i`: for
the selected point the halo (scale 15, inverted colour) and then the normal
marker, for any other point the normal marker (scale 10, stored colour). -/
def expected_fills {F Color Camera Triangle Mat : Type} (E : Ext F Color Camera)
    (G : Gfx F Color Camera Triangle Mat) (point_layer : PointLayer F Color)
    (i : Nat) : List (Triangle × Color) :=
  match point_layer.points[i]?, point_layer.colors[i]? with
  | some p, some c =>
    if (i : Int) = point_layer.selected then
      [(marker G p (E.flit 15), G.color_invert c), (marker G p (E.flit 10), c)]
    else [(marker G p (E.flit 10), c)]
  | _, _ => []

/-! ## Well-formed load input -/

/-- The C library's `isxdigit`. -/
def isxdigit (c : Char) : Bool :=
  isdigit c || ('a'.toNat ≤ c.toNat && c.toNat ≤ 'f'.toNat) ||
    ('A'.toNat ≤ c.toNat && c.toNat ≤ 'F'.toNat)

/-- A string of white space only. -/
def AllSpace (l : List Char) : Prop := ∀ c ∈ l, isspace c = true

/-- A token: not empty, without white space and without the terminator. -/
def IsToken (l : List Char) : Prop :=
  l ≠ [] ∧ ∀ c ∈ l, isspace c = false ∧ c ≠ NUL

/-- The text is a floating-point literal of the given value for the C
library: it starts with a character that is not white space, and a `%f`
conversion in front of white space reads exactly this text and gives the
value. -/
def ReadsFloat {F Color Camera : Type} (E : Ext F Color Camera)
    (text : List Char) (value : F) : Prop :=
  (∃ c cs, text = c :: cs ∧ isspace c = false) ∧
  ∀ c rest, isspace c = true → E.scan_float (text ++ c :: rest) = some (value, c :: rest)

/-- The count line of the load format, cut into its parts: white space, the
decimal digits of the count, and what follows them. -/
structure CountLine where
  lead : List Char
  digits : List Char
  trail : List Char

/-- The characters of a count line. -/
def CountLine.text (l : CountLine) : List Char := l.lead ++ (l.digits ++ l.trail)

/-- The count that a count line declares. -/
def CountLine.count (l : CountLine) : Nat := decimal_value l.digits

/-- A well-formed count line: optional white space, at least one decimal
digit, then nothing or something that does not go on with a digit. -/
structure CountLine.WellFormed (l : CountLine) : Prop where
  lead_space : AllSpace l.lead
  digits_ne : l.digits ≠ []
  digits_digit : ∀ c ∈ l.digits, isdigit c = true
  trail_stop : ∀ c ∈ l.trail.head?, isdigit c = false

/-- A point line of the load format, cut into its parts: the identifier
token, the texts and values of the two coordinates, the colour token, and
the white space around them. -/
structure PointLine (F : Type) where
  lead : List Char
  id : List Char
  sep1 : List Char
  xtext : List Char
  x : F
  sep2 : List Char
  ytext : List Char
  y : F
  sep3 : List Char
  color : List Char
  trail : List Char

/-- The characters of a point line. -/
def PointLine.text {F : Type} (p : PointLine F) : List Char :=
  p.lead ++ (p.id ++ (p.sep1 ++ (p.xtext ++ (p.sep2 ++ (p.ytext ++
    (p.sep3 ++ (p.color ++ p.trail)))))))

/-- A well-formed point line: an identifier token that fits the identifier
buffer together with its terminator, two floating-point literals, a colour
token of six hexadecimal digits, separated by white space. -/
structure PointLine.WellFormed {F Color Camera : Type} (E : Ext F Color Camera)
    (p : PointLine F) : Prop where
  lead_space : AllSpace p.lead
  id_token : IsToken p.id
  id_fits : p.id.length < E.ID_MAX_SIZE
  sep1_space : p.sep1 ≠ [] ∧ AllSpace p.sep1
  x_float : ReadsFloat E p.xtext p.x
  sep2_space : p.sep2 ≠ [] ∧ AllSpace p.sep2
  y_float : ReadsFloat E p.ytext p.y
  sep3_space : p.sep3 ≠ [] ∧ AllSpace p.sep3
  color_six : p.color.length = 6
  color_hex : ∀ c ∈ p.color, isxdigit c = true
  trail_space : AllSpace p.trail

/-- Every allocation of the loader succeeds. -/
def allocAll : Alloc := ⟨true, true, true, true⟩

/-- A stack that holds the character `?` and the number 0 everywhere. -/
def sampleStack : Stack Int := ⟨fun _ => '?', fun _ => '?', 0, 0⟩

/-- The load input of the scenario: two points, (0,0) red and (100,100)
green. -/
def sampleStream : List (List Char) :=
  ["2\n".toList, "id1 0 0 ff0000\n".toList, "id2 100 100 00ff00\n".toList]

/-! ## A concrete collaborator set

Exact integer arithmetic in the place of `float`, an identity camera and
colours as numbers: enough to run the layer on integer coordinates. -/

/-- The search for the integer square root of `n`, upwards from `k`. -/
def isqrt_from (n : Nat) : Nat → Nat → Nat
  | 0, k => k
  | fuel + 1, k => if (k + 1) * (k + 1) ≤ n then isqrt_from n fuel (k + 1) else k

/-- The square root of `n`, rounded down. -/
def isqrt (n : Nat) : Nat := isqrt_from n n 0

/-- The value of one hexadecimal digit, 0 for any other character. -/
def hex_digit (c : Char) : Nat :=
  if '0'.toNat ≤ c.toNat ∧ c.toNat ≤ '9'.toNat then c.toNat - '0'.toNat
  else if 'a'.toNat ≤ c.toNat ∧ c.toNat ≤ 'f'.toNat then c.toNat - 'a'.toNat + 10
  else if 'A'.toNat ≤ c.toNat ∧ c.toNat ≤ 'F'.toNat then c.toNat - 'A'.toNat + 10
  else 0

/-- A colour as the number its hexadecimal digits spell. -/
def hex_value (s : List Char) : Nat :=
  s.foldl (fun acc c => 16 * acc + hex_digit c) 0

/-- A `%f` conversion restricted to integers: an optional sign and at least
one decimal digit. -/
def scan_int (input : List Char) : Option (Int × List Char) :=
  let neg : Bool := input.head? = some '-'
  let body : List Char :=
    if input.head? = some '-' ∨ input.head? = some '+' then input.tail else input
  let ds := body.takeWhile isdigit
  if ds = [] then none
  else some (if neg then -(decimal_value ds : Int) else (decimal_value ds : Int),
    body.drop ds.length)

/-- The concrete collaborators: identifiers of 8 bytes, integer coordinates,
the Euclidean length rounded down (so that `length < 10` holds exactly when
the squared length is below 100). -/
def sampleExt : Ext Int Nat Unit where
  ID_MAX_SIZE := 8
  ID_MAX_SIZE_pos := by decide
  flit n := (n : Int)
  flt a b := decide (a < b)
  vec_sub a b := ⟨a.x - b.x, a.y - b.y⟩
  vec_length v := (isqrt (v.x * v.x + v.y * v.y).toNat : Int)
  camera_map_screen _ x y := ⟨x, y⟩
  hexstr := hex_value
  scan_float := scan_int

/-- A left-button press at a screen position. -/
def left_press (x y : Int) : SDL_MouseButtonEvent :=
  ⟨SDL_MOUSEBUTTONDOWN, SDL_BUTTON_LEFT, x, y⟩

/-- A press of the delete key. -/
def delete_press : SDL_KeyboardEvent := ⟨SDL_KEYDOWN, SDLK_DELETE⟩

/-- A layer of two points, (0,0) red and (100,100) green, with a selection. -/
def sampleLayer (selected : Int) : PointLayer Int Nat :=
  ⟨[⟨0, 0⟩, ⟨100, 100⟩], [0xff0000, 0x00ff00], ["id1".toList, "id2".toList], selected⟩

/-- A layer of two points one unit apart from each other, (6,0) before (1,0),
with nothing selected. -/
def overlapLayer : PointLayer Int Nat :=
  ⟨[⟨6, 0⟩, ⟨1, 0⟩], [0xff0000, 0x00ff00], ["id1".toList, "id2".toList], -1⟩

/-- The count line of the scenario. -/
def sampleCountLine : CountLine := ⟨[], ['2'], ['\n']⟩

/-- The two point lines of the scenario. -/
def samplePointLines : List (PointLine Int) :=
  [⟨[], "id1".toList, [' '], ['0'], 0, [' '], ['0'], 0, [' '], "ff0000".toList, ['\n']⟩,
   ⟨[], "id2".toList, [' '], "100".toList, 100, [' '], "100".toList, 100, [' '],
     "00ff00".toList, ['\n']⟩]

/-- A load input whose second point line has a coordinate that is no number. -/
def badCoordinateStream : List (List Char) :=
  ["2\n".toList, "id1 0 0 ff0000\n".toList, "id2 abc 3 00ff00\n".toList]

/-- A load input whose second point line has no colour token. -/
def missingColorStream : List (List Char) :=
  ["2\n".toList, "id1 0 0 ff0000\n".toList, "id2 100 100\n".toList]

/-- A translation and a scale, the shape of every matrix and triangle of the
concrete graphics: the triangle is the unit triangle moved by the matrix. -/
structure Placement where
  x : Int
  y : Int
  scale : Int
deriving DecidableEq, Repr

/-- The product of two placements: the second one is applied first. -/
def Placement.mul (a b : Placement) : Placement :=
  ⟨a.x + a.scale * b.x, a.y + a.scale * b.y, a.scale * b.scale⟩

/-- The concrete collaborators with a camera that is a number: the number of
fills the graphics context still accepts. -/
def drawExt : Ext Int Nat Nat where
  ID_MAX_SIZE := sampleExt.ID_MAX_SIZE
  ID_MAX_SIZE_pos := sampleExt.ID_MAX_SIZE_pos
  flit := sampleExt.flit
  flt := sampleExt.flt
  vec_sub := sampleExt.vec_sub
  vec_length := sampleExt.vec_length
  camera_map_screen _ x y := ⟨x, y⟩
  hexstr := sampleExt.hexstr
  scan_float := sampleExt.scan_float

/-- The concrete graphics: a fill fails (returns -1) once the camera has no
fills left, and succeeds (returns 0) before; the inverse of a colour is its
complement in 24 bits. -/
def sampleGfx : Gfx Int Nat Nat Placement Placement where
  equilateral_triangle := ⟨0, 0, 1⟩
  triangle_mat3x3_product t m := m.mul t
  mat3x3_product := Placement.mul
  trans_mat x y := ⟨x, y, 1⟩
  scale_mat k := ⟨0, 0, k⟩
  color_invert c := 0xffffff - c
  camera_fill_triangle camera _ _ := if camera = 0 then (-1, 0) else (0, camera - 1)

/-- A graphics context on which every fill succeeds. -/
def steadyGfx : Gfx Int Nat Nat Placement Placement :=
  { sampleGfx with camera_fill_triangle := fun camera _ _ => (0, camera) }

/-- A load input whose count line is a token that is no number, followed by
a point line. -/
def badCountStream : List (List Char) :=
  ["abc\n".toList, "id1 0 0 ff0000\n".toList]

/-! ## Basic facts -/

theorem int_of_size_of_lt (c : Nat) (h : c < 2 ^ 31) : int_of_size c = (c : Int) := by
  simp only [int_of_size, Int.bmod]
  norm_num
  omega

theorem int_of_size_le (c : Nat) : int_of_size c ≤ (c : Int) := by
  simp only [int_of_size, Int.bmod]
  norm_num
  split <;> omega

theorem toNat_int_of_size_le (c : Nat) : (int_of_size c).toNat ≤ c := by
  have := int_of_size_le c
  omega

theorem hit_scan_none {F Color Camera : Type} (E : Ext F Color Camera) (point : Point F)
    (l : List (Point F)) (i : Nat) :
    hit_scan E point l i = none ↔ ∀ q ∈ l, in_radius E q point = false := by
  induction l generalizing i with
  | nil => simp [hit_scan]
  | cons q qs ih =>
    simp only [hit_scan, List.mem_cons, forall_eq_or_imp]
    by_cases hq : in_radius E q point = true
    · simp [hq]
    · simp [hq, ih]

theorem hit_scan_some {F Color Camera : Type} (E : Ext F Color Camera) (point : Point F)
    (l : List (Point F)) (i j : Nat) :
    hit_scan E point l i = some j ↔
      ∃ k, j = i + k ∧ (∃ q, l[k]? = some q ∧ in_radius E q point = true) ∧
        ∀ m, m < k → ∀ q, l[m]? = some q → in_radius E q point = false := by
  induction l generalizing i with
  | nil => simp [hit_scan]
  | cons q qs ih =>
    simp only [hit_scan]
    by_cases hq : in_radius E q point = true
    · simp only [hq, if_true, Option.some.injEq]
      constructor
      · intro h
        exact ⟨0, by omega, ⟨q, by simp, hq⟩, by intro m hm; omega⟩
      · rintro ⟨k, hk, _, hmin⟩
        rcases Nat.eq_zero_or_pos k with h0 | hpos
        · omega
        · have := hmin 0 hpos q (by simp)
          simp [hq] at this
    · simp only [hq, Bool.false_eq_true, if_false, ih]
      have hqf : in_radius E q point = false := by simpa using hq
      constructor
      · rintro ⟨k, hk, ⟨q1, hq1, hin⟩, hmin⟩
        refine ⟨k + 1, by omega, ⟨q1, by simpa using hq1, hin⟩, ?_⟩
        intro m hm q2 hq2
        rcases m with _ | m
        · simp at hq2; subst hq2; exact hqf
        · exact hmin m (by omega) q2 (by simpa using hq2)
      · rintro ⟨k, hk, ⟨q1, hq1, hin⟩, hmin⟩
        rcases k with _ | k
        · simp at hq1; subst hq1; simp [hqf] at hin
        · refine ⟨k, by omega, ⟨q1, by simpa using hq1, hin⟩, ?_⟩
          intro m hm q2 hq2
          exact hmin (m + 1) (by omega) q2 (by simpa using hq2)

theorem load_points_lockstep {F Color Camera : Type} (E : Ext F Color Camera)
    (count : Nat) (line_stream : List (List Char)) (v : Locals F)
    (s L : PointLayer F Color) (hs : Lockstep s)
    (h : load_points E count line_stream v s = .layer L) : Lockstep L := by
  induction count generalizing line_stream v s with
  | zero =>
    simp only [load_points, LoadResult.layer.injEq] at h
    exact h ▸ hs
  | succ count ih =>
    rcases line_stream with _ | ⟨line, rest⟩
    · simp [load_points, line_stream_next] at h
    · simp only [load_points, line_stream_next] at h
      cases hr : sscanf_point E line v with
      | none =>
        rw [hr] at h
        exact absurd h (by simp)
      | some r =>
        rw [hr] at h
        simp only at h
        split at h
        · exact absurd h (by simp)
        · refine ih _ _ _ ?_ h
          simp only [Lockstep, dynarray_push, List.length_append, List.length_singleton]
          exact ⟨by rw [hs.1], by rw [hs.2]⟩

theorem create_lockstep {F Color Camera : Type} (E : Ext F Color Camera)
    (alloc : Alloc) (stack : Stack F) (line_stream : List (List Char))
    (L : PointLayer F Color)
    (h : create_point_layer_from_line_stream E alloc stack line_stream = .layer L) :
    Lockstep L := by
  unfold create_point_layer_from_line_stream at h
  split at h
  · exact absurd h (by simp)
  split at h
  · exact absurd h (by simp)
  split at h
  · exact absurd h (by simp)
  split at h
  · exact absurd h (by simp)
  rcases line_stream with _ | ⟨line, rest⟩
  · simp [line_stream_next] at h
  · simp only [line_stream_next] at h
    split at h
    · exact absurd h (by simp)
    · exact load_points_lockstep E _ _ _ _ L ⟨rfl, rfl⟩ h

theorem mouse_of_hit {F Color Camera : Type} (E : Ext F Color Camera)
    (s : PointLayer F Color) (event : SDL_MouseButtonEvent)
    (camera : Camera) (color : Color) (rand : Nat → Nat) (stack : Nat → Char)
    (hev : IsLeftPress event) (i : Nat)
    (hi : hit_scan E (E.camera_map_screen camera event.x event.y)
      (s.points.take (int_of_size (dynarray_count s.points)).toNat) 0 = some i) :
    point_layer_mouse_button E s event camera color rand stack =
      (0, { s with selected := (i : Int) }) := by
  unfold point_layer_mouse_button
  unfold IsLeftPress at hev
  rw [if_pos hev]
  simp only [hi]

theorem mouse_of_miss {F Color Camera : Type} (E : Ext F Color Camera)
    (s : PointLayer F Color) (event : SDL_MouseButtonEvent)
    (camera : Camera) (color : Color) (rand : Nat → Nat) (stack : Nat → Char)
    (hev : IsLeftPress event)
    (hi : hit_scan E (E.camera_map_screen camera event.x event.y)
      (s.points.take (int_of_size (dynarray_count s.points)).toNat) 0 = none) :
    point_layer_mouse_button E s event camera color rand stack =
      (0, { s with
              points := s.points ++ [E.camera_map_screen camera event.x event.y]
              colors := s.colors ++ [color]
              ids := s.ids ++ [fresh_id E rand stack] }) := by
  unfold point_layer_mouse_button
  unfold IsLeftPress at hev
  rw [if_pos hev]
  simp only [hi, dynarray_push]

theorem mouse_of_ignored {F Color Camera : Type} (E : Ext F Color Camera)
    (s : PointLayer F Color) (event : SDL_MouseButtonEvent)
    (camera : Camera) (color : Color) (rand : Nat → Nat) (stack : Nat → Char)
    (hev : ¬ IsLeftPress event) :
    point_layer_mouse_button E s event camera color rand stack = (0, s) := by
  unfold point_layer_mouse_button
  unfold IsLeftPress at hev
  rw [if_neg hev]

theorem keyboard_of_valid {F Color : Type} (s : PointLayer F Color)
    (event : SDL_KeyboardEvent) (hev : IsDeletePress event)
    (hsel : 0 ≤ s.selected ∧ s.selected < int_of_size (dynarray_count s.points)) :
    point_layer_keyboard s event =
      (0, { points := s.points.eraseIdx s.selected.toNat
            colors := s.colors.eraseIdx s.selected.toNat
            ids := s.ids.eraseIdx s.selected.toNat
            selected := -1 }) := by
  unfold point_layer_keyboard
  unfold IsDeletePress at hev
  rw [if_pos hev]
  simp only [if_pos hsel, dynarray_delete_at]

theorem keyboard_of_invalid {F Color : Type} (s : PointLayer F Color)
    (event : SDL_KeyboardEvent) (hev : IsDeletePress event)
    (hsel : ¬ (0 ≤ s.selected ∧ s.selected < int_of_size (dynarray_count s.points))) :
    point_layer_keyboard s event = (0, { s with selected := -1 }) := by
  unfold point_layer_keyboard
  unfold IsDeletePress at hev
  rw [if_pos hev]
  simp only [if_neg hsel]

theorem keyboard_of_ignored {F Color : Type} (s : PointLayer F Color)
    (event : SDL_KeyboardEvent) (hev : ¬ IsDeletePress event) :
    point_layer_keyboard s event = (0, s) := by
  unfold point_layer_keyboard
  unfold IsDeletePress at hev
  rw [if_neg hev]

theorem mouse_lockstep {F Color Camera : Type} (E : Ext F Color Camera)
    (s : PointLayer F Color) (h : Lockstep s) (event : SDL_MouseButtonEvent)
    (camera : Camera) (color : Color) (rand : Nat → Nat) (stack : Nat → Char) :
    Lockstep (point_layer_mouse_button E s event camera color rand stack).2 := by
  by_cases hev : IsLeftPress event
  · cases hi : hit_scan E (E.camera_map_screen camera event.x event.y)
        (s.points.take (int_of_size (dynarray_count s.points)).toNat) 0 with
    | some i =>
      rw [mouse_of_hit E s event camera color rand stack hev i hi]
      exact h
    | none =>
      rw [mouse_of_miss E s event camera color rand stack hev hi]
      simp only [Lockstep, List.length_append, List.length_singleton]
      exact ⟨by rw [h.1], by rw [h.2]⟩
  · rw [mouse_of_ignored E s event camera color rand stack hev]
    exact h

theorem keyboard_lockstep {F Color : Type} (s : PointLayer F Color) (h : Lockstep s)
    (event : SDL_KeyboardEvent) : Lockstep (point_layer_keyboard s event).2 := by
  by_cases hev : IsDeletePress event
  · by_cases hsel : 0 ≤ s.selected ∧ s.selected < int_of_size (dynarray_count s.points)
    · rw [keyboard_of_valid s event hev hsel]
      simp only [Lockstep, List.length_eraseIdx]
      rw [h.1, h.2]
      exact ⟨by rw [← h.2], rfl⟩
    · rw [keyboard_of_invalid s event hev hsel]
      exact h
  · rw [keyboard_of_ignored s event hev]
    exact h

theorem scan_window {F Color : Type} (s : PointLayer F Color)
    (hN : s.points.length < 2 ^ 31) :
    s.points.take (int_of_size (dynarray_count s.points)).toNat = s.points := by
  rw [dynarray_count, int_of_size_of_lt _ hN, Int.toNat_ofNat, List.take_length]

theorem mouse_selection_valid {F Color Camera : Type} (E : Ext F Color Camera)
    (s : PointLayer F Color) (h : SelectionValid s) (event : SDL_MouseButtonEvent)
    (camera : Camera) (color : Color) (rand : Nat → Nat) (stack : Nat → Char) :
    SelectionValid (point_layer_mouse_button E s event camera color rand stack).2 := by
  by_cases hev : IsLeftPress event
  · cases hi : hit_scan E (E.camera_map_screen camera event.x event.y)
        (s.points.take (int_of_size (dynarray_count s.points)).toNat) 0 with
    | some i =>
      rw [mouse_of_hit E s event camera color rand stack hev i hi]
      obtain ⟨k, hk, ⟨q, hq, _⟩, _⟩ := (hit_scan_some E _ _ 0 i).mp hi
      have hlt : k < (s.points.take (int_of_size (dynarray_count s.points)).toNat).length := by
        rcases List.getElem?_eq_some_iff.mp hq with ⟨hlt, _⟩
        exact hlt
      have hle : (s.points.take (int_of_size (dynarray_count s.points)).toNat).length
          ≤ s.points.length := by
        rw [List.length_take]; omega
      right
      simp only [point_layer_count, dynarray_count]
      omega
    | none =>
      rw [mouse_of_miss E s event camera color rand stack hev hi]
      rcases h with h | h
      · exact Or.inl h
      · right
        simp only [point_layer_count, dynarray_count, List.length_append,
          List.length_singleton] at h ⊢
        omega
  · rw [mouse_of_ignored E s event camera color rand stack hev]
    exact h

theorem keyboard_selection_valid {F Color : Type} (s : PointLayer F Color)
    (h : SelectionValid s) (event : SDL_KeyboardEvent) :
    SelectionValid (point_layer_keyboard s event).2 := by
  by_cases hev : IsDeletePress event
  · by_cases hsel : 0 ≤ s.selected ∧ s.selected < int_of_size (dynarray_count s.points)
    · rw [keyboard_of_valid s event hev hsel]
      exact Or.inl rfl
    · rw [keyboard_of_invalid s event hev hsel]
      exact Or.inl rfl
  · rw [keyboard_of_ignored s event hev]
    exact h

theorem run_inputs_selection_valid {F Color Camera : Type} (E : Ext F Color Camera)
    (s : PointLayer F Color) (h : SelectionValid s) (inputs : List (Input Color Camera)) :
    SelectionValid (run_inputs E s inputs) := by
  induction inputs generalizing s with
  | nil => exact h
  | cons input rest ih =>
    simp only [run_inputs, List.foldl_cons]
    apply ih
    cases input with
    | mouse event camera color rand stack =>
      exact mouse_selection_valid E s h event camera color rand stack
    | keyboard event => exact keyboard_selection_valid s h event

theorem load_points_selected {F Color Camera : Type} (E : Ext F Color Camera)
    (count : Nat) (line_stream : List (List Char)) (v : Locals F)
    (s L : PointLayer F Color)
    (h : load_points E count line_stream v s = .layer L) : L.selected = s.selected := by
  induction count generalizing line_stream v s with
  | zero =>
    simp only [load_points, LoadResult.layer.injEq] at h
    rw [← h]
  | succ count ih =>
    rcases line_stream with _ | ⟨line, rest⟩
    · simp [load_points, line_stream_next] at h
    · simp only [load_points, line_stream_next] at h
      cases hr : sscanf_point E line v with
      | none =>
        rw [hr] at h
        exact absurd h (by simp)
      | some r =>
        rw [hr] at h
        simp only at h
        split at h
        · exact absurd h (by simp)
        · have := ih _ _ _ h
          simpa using this

/-- Every layer that the loader returns has the selection -1. -/
theorem create_selected {F Color Camera : Type} (E : Ext F Color Camera)
    (alloc : Alloc) (stack : Stack F) (line_stream : List (List Char))
    (L : PointLayer F Color)
    (h : create_point_layer_from_line_stream E alloc stack line_stream = .layer L) :
    L.selected = -1 := by
  unfold create_point_layer_from_line_stream at h
  split at h
  · exact absurd h (by simp)
  split at h
  · exact absurd h (by simp)
  split at h
  · exact absurd h (by simp)
  split at h
  · exact absurd h (by simp)
  rcases line_stream with _ | ⟨line, rest⟩
  · simp [line_stream_next] at h
  · simp only [line_stream_next] at h
    split at h
    · exact absurd h (by simp)
    · exact load_points_selected E _ _ _ _ L h

/-! ## Facts about the scanner -/

theorem skip_space_of_not_space (c : Char) (cs : List Char) (h : isspace c = false) :
    skip_space (c :: cs) = c :: cs := by
  simp [skip_space, List.dropWhile, h]

theorem skip_space_append (l r : List Char) (h : AllSpace l) :
    skip_space (l ++ r) = skip_space r := by
  induction l with
  | nil => rfl
  | cons c cs ih =>
    have hc : isspace c = true := h c (List.mem_cons_self c cs)
    have hcs : AllSpace cs := fun d hd => h d (List.mem_cons_of_mem c hd)
    simp only [skip_space, List.cons_append, List.dropWhile_cons, hc, if_true]
    exact ih hcs

theorem takeWhile_stop {p : Char → Bool} (tok rest : List Char)
    (htok : ∀ c ∈ tok, p c = true) (hrest : ∀ c ∈ rest.head?, p c = false) :
    (tok ++ rest).takeWhile p = tok := by
  induction tok with
  | nil =>
    cases rest with
    | nil => rfl
    | cons c cs =>
      have : p c = false := hrest c (by simp)
      simp [List.takeWhile, this]
  | cons c cs ih =>
    have hc : p c = true := htok c (List.mem_cons_self c cs)
    simp only [List.cons_append, List.takeWhile_cons, hc, if_true]
    rw [ih fun d hd => htok d (List.mem_cons_of_mem c hd)]

theorem scan_str_token (width : Nat) (lead tok rest : List Char)
    (hlead : AllSpace lead) (hne : tok ≠ [])
    (htok : ∀ c ∈ tok, isspace c = false) (hlen : tok.length ≤ width)
    (hrest : ∀ c ∈ rest.head?, isspace c = true) :
    scan_str width (lead ++ (tok ++ rest)) = some (tok, rest) := by
  obtain ⟨c, cs, rfl⟩ := List.exists_cons_of_ne_nil hne
  have hc : isspace c = false := htok c (List.mem_cons_self c cs)
  have htw : ((c :: cs) ++ rest).takeWhile (fun c => !isspace c) = c :: cs :=
    takeWhile_stop (c :: cs) rest (fun d hd => by simp [htok d hd])
      (fun d hd => by simp [hrest d hd])
  unfold scan_str
  rw [skip_space_append lead _ hlead, List.cons_append, skip_space_of_not_space c _ hc]
  simp only
  rw [← List.cons_append, htw, List.take_of_length_le hlen, List.drop_left]

theorem scan_f_float {F Color Camera : Type} (E : Ext F Color Camera)
    (sep text : List Char) (value : F) (c : Char) (rest : List Char)
    (hsep : AllSpace sep) (htext : ReadsFloat E text value) (hc : isspace c = true) :
    scan_f E (sep ++ (text ++ c :: rest)) = some (value, c :: rest) := by
  obtain ⟨⟨d, ds, rfl, hd⟩, hread⟩ := htext
  unfold scan_f
  rw [skip_space_append sep _ hsep, List.cons_append, skip_space_of_not_space d _ hd]
  simp only
  rw [← List.cons_append]
  exact hread c rest hc

theorem isxdigit_token (c : Char) (h : isxdigit c = true) : isspace c = false ∧ c ≠ NUL := by
  have h0 : NUL.toNat = 0 := by decide
  constructor
  · simp only [isxdigit, isdigit, isspace, Bool.or_eq_true, Bool.and_eq_true,
      decide_eq_true_eq] at h
    simp only [isspace, Bool.or_eq_false_iff, Bool.and_eq_false_iff, decide_eq_false_iff_not]
    have e0 : '0'.toNat = 48 := by decide
    have e9 : '9'.toNat = 57 := by decide
    have ea : 'a'.toNat = 97 := by decide
    have ef : 'f'.toNat = 102 := by decide
    have eA : 'A'.toNat = 65 := by decide
    have eF : 'F'.toNat = 70 := by decide
    omega
  · intro hc
    subst hc
    revert h
    decide

theorem head_space_of_sep (sep rest : List Char) (hsep : sep ≠ [] ∧ AllSpace sep) :
    ∀ c ∈ (sep ++ rest).head?, isspace c = true := by
  obtain ⟨c, cs, rfl⟩ := List.exists_cons_of_ne_nil hsep.1
  intro d hd
  simp only [List.cons_append, List.head?_cons, Option.mem_def, Option.some.injEq] at hd
  exact hd ▸ hsep.2 c (List.mem_cons_self c cs)

theorem head_space_of_all (l : List Char) (h : AllSpace l) :
    ∀ c ∈ l.head?, isspace c = true := by
  intro c hc
  exact h c (List.mem_of_mem_head? hc)

theorem sscanf_point_well_formed {F Color Camera : Type} (E : Ext F Color Camera)
    (p : PointLine F) (hp : p.WellFormed E) (v : Locals F) :
    sscanf_point E p.text v =
      some (4, { color_name := store_str v.color_name p.color
                 id := store_str v.id p.id
                 x := p.x
                 y := p.y }) := by
  obtain ⟨c2, cs2, h2⟩ := List.exists_cons_of_ne_nil hp.sep2_space.1
  obtain ⟨c3, cs3, h3⟩ := List.exists_cons_of_ne_nil hp.sep3_space.1
  have hc2 : isspace c2 = true := hp.sep2_space.2 c2 (h2 ▸ List.mem_cons_self c2 cs2)
  have hc3 : isspace c3 = true := hp.sep3_space.2 c3 (h3 ▸ List.mem_cons_self c3 cs3)
  have hcolor_ne : p.color ≠ [] := by
    intro h
    have := hp.color_six
    rw [h] at this
    exact absurd this (by decide)
  have s1 : scan_str E.ID_MAX_SIZE p.text =
      some (p.id, p.sep1 ++ (p.xtext ++ (p.sep2 ++ (p.ytext ++
        (p.sep3 ++ (p.color ++ p.trail)))))) :=
    scan_str_token _ _ _ _ hp.lead_space hp.id_token.1 (fun c hc => (hp.id_token.2 c hc).1)
      (Nat.le_of_lt hp.id_fits) (head_space_of_sep _ _ hp.sep1_space)
  have s2 : scan_f E (p.sep1 ++ (p.xtext ++ (p.sep2 ++ (p.ytext ++
        (p.sep3 ++ (p.color ++ p.trail)))))) =
      some (p.x, p.sep2 ++ (p.ytext ++ (p.sep3 ++ (p.color ++ p.trail)))) := by
    rw [h2, List.cons_append]
    exact scan_f_float E _ _ _ c2 _ hp.sep1_space.2 hp.x_float hc2
  have s3 : scan_f E (p.sep2 ++ (p.ytext ++ (p.sep3 ++ (p.color ++ p.trail)))) =
      some (p.y, p.sep3 ++ (p.color ++ p.trail)) := by
    rw [h3, List.cons_append]
    exact scan_f_float E _ _ _ c3 _ hp.sep2_space.2 hp.y_float hc3
  have s4 : scan_str 6 (p.sep3 ++ (p.color ++ p.trail)) = some (p.color, p.trail) :=
    scan_str_token _ _ _ _ hp.sep3_space.2 hcolor_ne
      (fun c hc => (isxdigit_token c (hp.color_hex c hc)).1)
      (Nat.le_of_eq hp.color_six) (head_space_of_all _ hp.trail_space)
  have hfit : ¬ E.ID_MAX_SIZE < p.id.length + 1 := Nat.not_lt.mpr hp.id_fits
  simp only [sscanf_point, s1, if_neg hfit, s2, s3, s4]

theorem cstr_store_str (buf s : List Char) (hs : ∀ c ∈ s, c ≠ NUL) :
    cstr (store_str buf s) = s := by
  unfold cstr store_str
  exact takeWhile_stop s _ (fun c hc => by simpa using hs c hc) (fun c hc => by
    simp only [List.head?_cons, Option.mem_def, Option.some.injEq] at hc
    simp [← hc])

theorem cstr_take_store_str (width : Nat) (buf s : List Char) (hs : ∀ c ∈ s, c ≠ NUL)
    (hlen : s.length < width) : cstr ((store_str buf s).take width) = s := by
  unfold cstr store_str
  rw [List.take_append_eq_append_take, List.take_of_length_le (Nat.le_of_lt hlen)]
  obtain ⟨k, hk⟩ : ∃ k, width - s.length = k + 1 := ⟨width - s.length - 1, by omega⟩
  rw [hk, List.take_succ_cons]
  exact takeWhile_stop s _ (fun c hc => by simpa using hs c hc) (fun c hc => by
    simp only [List.head?_cons, Option.mem_def, Option.some.injEq] at hc
    simp [← hc])

theorem load_points_well_formed {F Color Camera : Type} (E : Ext F Color Camera)
    (pls : List (PointLine F)) (hpls : ∀ p ∈ pls, p.WellFormed E)
    (rest : List (List Char)) (v : Locals F) (s : PointLayer F Color) :
    ∃ L, load_points E pls.length (pls.map PointLine.text ++ rest) v s = .layer L ∧
      L.selected = s.selected ∧
      L.points = s.points ++ pls.map (fun p => vec p.x p.y) ∧
      L.colors = s.colors ++ pls.map (fun p => E.hexstr p.color) ∧
      L.ids.map cstr = s.ids.map cstr ++ pls.map (fun p => p.id) := by
  induction pls generalizing v s with
  | nil => exact ⟨s, rfl, rfl, by simp, by simp, by simp⟩
  | cons p ps ih =>
    have hp : p.WellFormed E := hpls p (List.mem_cons_self p ps)
    have hps : ∀ q ∈ ps, q.WellFormed E := fun q hq => hpls q (List.mem_cons_of_mem p hq)
    simp only [List.length_cons, List.map_cons, List.cons_append, load_points,
      line_stream_next, sscanf_point_well_formed E p hp v]
    rw [if_neg (by decide)]
    obtain ⟨L, hL, hsel, hpts, hcol, hids⟩ := ih hps
      { color_name := store_str v.color_name p.color
        id := store_str v.id p.id
        x := p.x
        y := p.y }
      { s with
          colors := dynarray_push s.colors (E.hexstr (cstr (store_str v.color_name p.color)))
          points := dynarray_push s.points (vec p.x p.y)
          ids := dynarray_push s.ids ((store_str v.id p.id).take E.ID_MAX_SIZE) }
    refine ⟨L, hL, hsel, ?_, ?_, ?_⟩
    · rw [hpts]; simp [dynarray_push]
    · rw [hcol, cstr_store_str _ _ fun c hc => (isxdigit_token c (hp.color_hex c hc)).2]
      simp [dynarray_push]
    · rw [hids]
      simp only [dynarray_push, List.map_append, List.map_cons, List.map_nil,
        List.append_assoc, List.singleton_append]
      rw [cstr_take_store_str _ _ _ (fun c hc => (hp.id_token.2 c hc).2) hp.id_fits]

theorem sscanf_lu_well_formed (l : CountLine) (hl : l.WellFormed)
    (h64 : l.count < 2 ^ 64) (count : Nat) :
    sscanf_lu l.text count = (1, l.count) := by
  obtain ⟨c, cs, hds⟩ := List.exists_cons_of_ne_nil hl.digits_ne
  have hc : isdigit c = true := hl.digits_digit c (hds ▸ List.mem_cons_self c cs)
  have hcs : isspace c = false ∧ c ≠ '-' ∧ c ≠ '+' := by
    simp only [isdigit, Bool.and_eq_true, decide_eq_true_eq] at hc
    have e0 : '0'.toNat = 48 := by decide
    have e9 : '9'.toNat = 57 := by decide
    refine ⟨?_, ?_, ?_⟩
    · simp only [isspace, Bool.or_eq_false_iff, Bool.and_eq_false_iff,
        decide_eq_false_iff_not]
      omega
    · intro h; subst h; revert hc; decide
    · intro h; subst h; revert hc; decide
  have htw : (l.digits ++ l.trail).takeWhile isdigit = l.digits :=
    takeWhile_stop _ _ hl.digits_digit hl.trail_stop
  unfold sscanf_lu CountLine.text
  rw [skip_space_append _ _ hl.lead_space, hds, List.cons_append,
    skip_space_of_not_space c _ hcs.1]
  simp only [hcs.2.1, hcs.2.2, or_self, if_false, decide_False]
  rw [← List.cons_append, ← hds, htw, if_neg hl.digits_ne]
  unfold CountLine.count at h64
  simp only [strtoul_value, CountLine.count, if_neg (Nat.not_le.mpr h64)]
  rfl

theorem scan_int_digits (ds : List Char) (hne : ds ≠ [])
    (hds : ∀ c ∈ ds, isdigit c = true) (c : Char) (rest : List Char)
    (hc : isdigit c = false) :
    scan_int (ds ++ c :: rest) = some ((decimal_value ds : Int), c :: rest) := by
  obtain ⟨d, ds1, rfl⟩ := List.exists_cons_of_ne_nil hne
  have hd : isdigit d = true := hds d (List.mem_cons_self d ds1)
  have hsign : d ≠ '-' ∧ d ≠ '+' := by
    constructor
    · intro h; subst h; revert hd; decide
    · intro h; subst h; revert hd; decide
  have htw : ((d :: ds1) ++ c :: rest).takeWhile isdigit = d :: ds1 :=
    takeWhile_stop _ _ hds (fun e he => by
      simp only [List.head?_cons, Option.mem_def, Option.some.injEq] at he
      exact he ▸ hc)
  unfold scan_int
  simp only [List.cons_append, List.head?_cons, Option.some.injEq, hsign.1, hsign.2,
    or_self, if_false, decide_False]
  rw [← List.cons_append, htw]
  simp

theorem reads_float_digits (ds : List Char) (hne : ds ≠ [])
    (hds : ∀ c ∈ ds, isdigit c = true) :
    ReadsFloat sampleExt ds (decimal_value ds : Int) := by
  obtain ⟨d, ds1, rfl⟩ := List.exists_cons_of_ne_nil hne
  have hd : isdigit d = true := hds d (List.mem_cons_self d ds1)
  have digit_not_space : ∀ c, isspace c = true → isdigit c = false := by
    intro c hc
    simp only [isspace, Bool.or_eq_true, Bool.and_eq_true, decide_eq_true_eq] at hc
    simp only [isdigit, Bool.and_eq_false_iff, decide_eq_false_iff_not]
    have e0 : '0'.toNat = 48 := by decide
    have e9 : '9'.toNat = 57 := by decide
    omega
  refine ⟨⟨d, ds1, rfl, ?_⟩, ?_⟩
  · cases h : isspace d with
    | false => rfl
    | true => rw [digit_not_space d h] at hd; exact absurd hd (by decide)
  · intro c rest hc
    exact scan_int_digits (d :: ds1) hne hds c rest (digit_not_space c hc)

theorem samplePointLines_well_formed :
    ∀ p ∈ samplePointLines, p.WellFormed sampleExt := by
  intro p hp
  simp only [samplePointLines, List.mem_cons, List.mem_singleton, List.not_mem_nil,
    or_false] at hp
  rcases hp with rfl | rfl
  · exact
      { lead_space := by unfold AllSpace; decide
        id_token := by unfold IsToken; decide
        id_fits := by decide
        sep1_space := by unfold AllSpace; decide
        x_float := reads_float_digits ['0'] (by decide) (by decide)
        sep2_space := by unfold AllSpace; decide
        y_float := reads_float_digits ['0'] (by decide) (by decide)
        sep3_space := by unfold AllSpace; decide
        color_six := by decide
        color_hex := by decide
        trail_space := by unfold AllSpace; decide }
  · exact
      { lead_space := by unfold AllSpace; decide
        id_token := by unfold IsToken; decide
        id_fits := by decide
        sep1_space := by unfold AllSpace; decide
        x_float := reads_float_digits "100".toList (by decide) (by decide)
        sep2_space := by unfold AllSpace; decide
        y_float := reads_float_digits "100".toList (by decide) (by decide)
        sep3_space := by unfold AllSpace; decide
        color_six := by decide
        color_hex := by decide
        trail_space := by unfold AllSpace; decide }

theorem sampleCountLine_well_formed : sampleCountLine.WellFormed :=
  { lead_space := by unfold AllSpace; decide
    digits_ne := by decide
    digits_digit := by decide
    trail_stop := by decide }

/-! ## Facts about the renderer -/

theorem render_point_outcome {F Color Camera Triangle Mat : Type} (E : Ext F Color Camera)
    (G : Gfx F Color Camera Triangle Mat) (s : PointLayer F Color) (i : Nat)
    (camera : Camera) (hp : i < s.points.length) (hc : i < s.colors.length) :
    ∃ go camera1 fills, render_point E G s i camera = some (go, camera1, fills) ∧
      ((go = true ∧ ∀ f ∈ fills, 0 ≤ f.result) ∨
       (go = false ∧ ∃ init last, fills = init ++ [last] ∧
          (∀ f ∈ init, 0 ≤ f.result) ∧ last.result < 0)) := by
  simp only [render_point, List.getElem?_eq_getElem hp, List.getElem?_eq_getElem hc]
  by_cases hsel : (i : Int) = s.selected
  · simp only [if_pos hsel]
    by_cases h0 : (G.camera_fill_triangle camera (marker G s.points[i] (E.flit 15))
        (G.color_invert s.colors[i])).1 < 0
    · simp only [if_pos h0]
      exact ⟨_, _, _, rfl, Or.inr ⟨rfl, [], _, rfl, by simp, h0⟩⟩
    · simp only [if_neg h0]
      by_cases h1 : (G.camera_fill_triangle
          (G.camera_fill_triangle camera (marker G s.points[i] (E.flit 15))
            (G.color_invert s.colors[i])).2
          (marker G s.points[i] (POINT_LAYER_ELEMENT_RADIUS E)) s.colors[i]).1 < 0
      · refine ⟨_, _, _, rfl, Or.inr ⟨by simp [h1], [_], _, rfl, ?_, h1⟩⟩
        intro f hf
        simp only [List.mem_singleton] at hf
        subst hf
        exact Int.not_lt.mp h0
      · refine ⟨_, _, _, rfl, Or.inl ⟨by simp [h1], ?_⟩⟩
        intro f hf
        simp only [List.mem_cons, List.mem_singleton, List.not_mem_nil, or_false] at hf
        rcases hf with rfl | rfl
        · exact Int.not_lt.mp h0
        · exact Int.not_lt.mp h1
  · simp only [if_neg hsel]
    by_cases h1 : (G.camera_fill_triangle camera
        (marker G s.points[i] (POINT_LAYER_ELEMENT_RADIUS E)) s.colors[i]).1 < 0
    · exact ⟨_, _, _, rfl, Or.inr ⟨by simp [h1], [], _, rfl, by simp, h1⟩⟩
    · refine ⟨_, _, _, rfl, Or.inl ⟨by simp [h1], ?_⟩⟩
      intro f hf
      simp only [List.mem_singleton] at hf
      subst hf
      exact Int.not_lt.mp h1

theorem render_loop_outcome {F Color Camera Triangle Mat : Type} (E : Ext F Color Camera)
    (G : Gfx F Color Camera Triangle Mat) (s : PointLayer F Color) (indices : List Nat)
    (camera : Camera)
    (hin : ∀ i ∈ indices, i < s.points.length ∧ i < s.colors.length) :
    ∃ ret camera1 fills, render_loop E G s indices camera = some (ret, camera1, fills) ∧
      ((ret = 0 ∧ ∀ f ∈ fills, 0 ≤ f.result) ∨
       (ret = -1 ∧ ∃ init last, fills = init ++ [last] ∧
          (∀ f ∈ init, 0 ≤ f.result) ∧ last.result < 0)) := by
  induction indices generalizing camera with
  | nil => exact ⟨0, camera, [], rfl, Or.inl ⟨rfl, by simp⟩⟩
  | cons i rest ih =>
    have hi := hin i (List.mem_cons_self i rest)
    obtain ⟨go, camera1, fills, hpt, hcase⟩ :=
      render_point_outcome E G s i camera hi.1 hi.2
    rcases hcase with ⟨hgo, hok⟩ | ⟨hgo, hbad⟩
    · subst hgo
      obtain ⟨ret, camera2, later, hloop, hrest⟩ :=
        ih camera1 fun j hj => hin j (List.mem_cons_of_mem i hj)
      refine ⟨ret, camera2, fills ++ later, by simp only [render_loop, hpt, hloop], ?_⟩
      rcases hrest with ⟨hret, hall⟩ | ⟨hret, init, last, hsplit, hinit, hlast⟩
      · left
        refine ⟨hret, ?_⟩
        intro f hf
        rcases List.mem_append.mp hf with h | h
        · exact hok f h
        · exact hall f h
      · right
        refine ⟨hret, fills ++ init, last, by rw [hsplit, List.append_assoc], ?_, hlast⟩
        intro f hf
        rcases List.mem_append.mp hf with h | h
        · exact hok f h
        · exact hinit f h
    · subst hgo
      exact ⟨-1, camera1, fills, by simp only [render_loop, hpt], Or.inr ⟨rfl, hbad⟩⟩

theorem render_indices_in_range {F Color : Type} (s : PointLayer F Color) (hl : Lockstep s) :
    ∀ i ∈ List.range (int_of_size (dynarray_count s.points)).toNat,
      i < s.points.length ∧ i < s.colors.length := by
  intro i hi
  have h1 := List.mem_range.mp hi
  have h2 := toNat_int_of_size_le (dynarray_count s.points)
  simp only [dynarray_count] at h1 h2
  have := hl.1
  omega

theorem point_layer_render_eq {F Color Camera Triangle Mat : Type} (E : Ext F Color Camera)
    (G : Gfx F Color Camera Triangle Mat) (s : PointLayer F Color) (camera : Camera) :
    point_layer_render E G s camera =
      (render_loop E G s (List.range (int_of_size (dynarray_count s.points)).toNat)
        camera).map fun out => ⟨out.1, s, out.2.1, out.2.2⟩ := by
  unfold point_layer_render
  rfl

theorem render_outcome {F Color Camera Triangle Mat : Type} (E : Ext F Color Camera)
    (G : Gfx F Color Camera Triangle Mat) (s : PointLayer F Color) (camera : Camera)
    (hl : Lockstep s) :
    ∃ r, point_layer_render E G s camera = some r ∧ r.point_layer = s ∧
      ((r.ret = 0 ∧ ∀ f ∈ r.fills, 0 ≤ f.result) ∨
       (r.ret = -1 ∧ ∃ init last, r.fills = init ++ [last] ∧
          (∀ f ∈ init, 0 ≤ f.result) ∧ last.result < 0)) := by
  obtain ⟨ret, camera1, fills, hloop, hcase⟩ :=
    render_loop_outcome E G s _ camera (render_indices_in_range s hl)
  exact ⟨⟨ret, s, camera1, fills⟩, by rw [point_layer_render_eq, hloop]; rfl, rfl, hcase⟩

theorem render_layer_unchanged {F Color Camera Triangle Mat : Type} (E : Ext F Color Camera)
    (G : Gfx F Color Camera Triangle Mat) (s : PointLayer F Color) (camera : Camera)
    (r : Rendered F Color Camera Triangle)
    (h : point_layer_render E G s camera = some r) : r.point_layer = s := by
  rw [point_layer_render_eq] at h
  cases hloop : render_loop E G s
      (List.range (int_of_size (dynarray_count s.points)).toNat) camera with
  | none =>
    rw [hloop] at h
    exact absurd h (by simp)
  | some out =>
    rw [hloop] at h
    simp only [Option.map_some', Option.some.injEq] at h
    rw [← h]

theorem render_point_steady {F Color Camera Triangle Mat : Type} (E : Ext F Color Camera)
    (G : Gfx F Color Camera Triangle Mat) (s : PointLayer F Color) (i : Nat)
    (camera : Camera) (hp : i < s.points.length) (hc : i < s.colors.length)
    (hfill : ∀ cam t c, 0 ≤ (G.camera_fill_triangle cam t c).1) :
    ∃ camera1 fills, render_point E G s i camera = some (true, camera1, fills) ∧
      fills.map (fun f => (f.triangle, f.color)) = expected_fills E G s i := by
  have hnot : ∀ cam t c, ¬ (G.camera_fill_triangle cam t c).1 < 0 :=
    fun cam t c => Int.not_lt.mpr (hfill cam t c)
  simp only [render_point, expected_fills, List.getElem?_eq_getElem hp,
    List.getElem?_eq_getElem hc, POINT_LAYER_ELEMENT_RADIUS]
  by_cases hsel : (i : Int) = s.selected
  · simp only [if_pos hsel, if_neg (hnot _ _ _)]
    simp only [hnot, not_false_eq_true, decide_True, Option.some.injEq, Prod.mk.injEq,
      true_and]
    exact ⟨_, _, ⟨rfl, rfl⟩, rfl⟩
  · simp only [if_neg hsel]
    simp only [hnot, not_false_eq_true, decide_True, Option.some.injEq, Prod.mk.injEq,
      true_and]
    exact ⟨_, _, ⟨rfl, rfl⟩, rfl⟩

theorem render_loop_steady {F Color Camera Triangle Mat : Type} (E : Ext F Color Camera)
    (G : Gfx F Color Camera Triangle Mat) (s : PointLayer F Color) (indices : List Nat)
    (camera : Camera)
    (hin : ∀ i ∈ indices, i < s.points.length ∧ i < s.colors.length)
    (hfill : ∀ cam t c, 0 ≤ (G.camera_fill_triangle cam t c).1) :
    ∃ camera1 fills, render_loop E G s indices camera = some (0, camera1, fills) ∧
      fills.map (fun f => (f.triangle, f.color)) =
        indices.flatMap (expected_fills E G s) := by
  induction indices generalizing camera with
  | nil => exact ⟨camera, [], rfl, rfl⟩
  | cons i rest ih =>
    have hi := hin i (List.mem_cons_self i rest)
    obtain ⟨camera1, fills, hpt, hmap⟩ :=
      render_point_steady E G s i camera hi.1 hi.2 hfill
    obtain ⟨camera2, later, hloop, hlater⟩ :=
      ih camera1 fun j hj => hin j (List.mem_cons_of_mem i hj)
    refine ⟨camera2, fills ++ later, by simp only [render_loop, hpt, hloop], ?_⟩
    rw [List.map_append, hmap, hlater, List.flatMap_cons]

theorem expected_fills_length {F Color Camera Triangle Mat : Type} (E : Ext F Color Camera)
    (G : Gfx F Color Camera Triangle Mat) (s : PointLayer F Color) (i : Nat)
    (hp : i < s.points.length) (hc : i < s.colors.length) :
    (expected_fills E G s i).length = 1 + if (i : Int) = s.selected then 1 else 0 := by
  simp only [expected_fills, List.getElem?_eq_getElem hp, List.getElem?_eq_getElem hc]
  by_cases hsel : (i : Int) = s.selected
  · simp [hsel]
  · simp [hsel]

theorem expected_fills_total {F Color Camera Triangle Mat : Type} (E : Ext F Color Camera)
    (G : Gfx F Color Camera Triangle Mat) (s : PointLayer F Color) (n : Nat)
    (hp : n ≤ s.points.length) (hc : n ≤ s.colors.length) :
    ((List.range n).flatMap (expected_fills E G s)).length =
      if 0 ≤ s.selected ∧ s.selected < (n : Int) then n + 1 else n := by
  induction n with
  | zero =>
    have : ¬ (0 ≤ s.selected ∧ s.selected < ((0 : Nat) : Int)) := by omega
    rw [if_neg this]
    rfl
  | succ n ih =>
    have ih1 := ih (by omega) (by omega)
    rw [List.range_succ, List.flatMap_append, List.length_append, ih1,
      List.flatMap_singleton, expected_fills_length E G s n (by omega) (by omega)]
    by_cases h1 : 0 ≤ s.selected ∧ s.selected < (n : Int)
    · have h2 : ¬ ((n : Int) = s.selected) := by omega
      have h3 : 0 ≤ s.selected ∧ s.selected < ((n + 1 : Nat) : Int) := by omega
      rw [if_pos h1, if_neg h2, if_pos h3]
    · by_cases h2 : (n : Int) = s.selected
      · have h3 : 0 ≤ s.selected ∧ s.selected < ((n + 1 : Nat) : Int) := by omega
        rw [if_neg h1, if_pos h2, if_pos h3]
      · have h3 : ¬ (0 ≤ s.selected ∧ s.selected < ((n + 1 : Nat) : Int)) := by omega
        rw [if_neg h1, if_neg h2, if_neg h3]

theorem render_loop_ret {F Color Camera Triangle Mat : Type} (E : Ext F Color Camera)
    (G : Gfx F Color Camera Triangle Mat) (s : PointLayer F Color) (indices : List Nat)
    (camera : Camera) (out : Int × Camera × List (FillCall Triangle Color))
    (h : render_loop E G s indices camera = some out) : out.1 = 0 ∨ out.1 = -1 := by
  induction indices generalizing camera out with
  | nil =>
    simp only [render_loop, Option.some.injEq] at h
    exact Or.inl (by rw [← h])
  | cons i rest ih =>
    simp only [render_loop] at h
    rcases hpt : render_point E G s i camera with _ | ⟨go, camera1, fills⟩
    · rw [hpt] at h
      exact absurd h (by simp)
    · rw [hpt] at h
      cases go with
      | false =>
        simp only [Option.some.injEq] at h
        exact Or.inr (by rw [← h])
      | true =>
        simp only at h
        rcases hloop : render_loop E G s rest camera1 with _ | ⟨ret, camera2, later⟩
        · rw [hloop] at h
          exact absurd h (by simp)
        · rw [hloop] at h
          simp only [Option.some.injEq] at h
          have := ih camera1 _ hloop
          rw [← h]
          exact this

theorem letter_in_range (k : Fin 26) :
    'a' ≤ Char.ofNat ('a'.toNat + k.val) ∧ Char.ofNat ('a'.toNat + k.val) ≤ 'z' := by
  revert k
  decide

theorem generated_letter (r : Nat) :
    'a' ≤ Char.ofNat ('a'.toNat + r % ('z'.toNat - 'a'.toNat + 1)) ∧
    Char.ofNat ('a'.toNat + r % ('z'.toNat - 'a'.toNat + 1)) ≤ 'z' := by
  have h26 : 'z'.toNat - 'a'.toNat + 1 = 26 := by decide
  rw [h26]
  exact letter_in_range ⟨r % 26, Nat.mod_lt r (by decide)⟩

theorem fresh_id_length {F Color Camera : Type} (E : Ext F Color Camera)
    (rand : Nat → Nat) (stack : Nat → Char) :
    (fresh_id E rand stack).length = E.ID_MAX_SIZE := by
  simp [fresh_id]

theorem fresh_id_getElem? {F Color Camera : Type} (E : Ext F Color Camera)
    (rand : Nat → Nat) (stack : Nat → Char) (i : Nat) (hi : i < E.ID_MAX_SIZE) :
    (fresh_id E rand stack)[i]? =
      some (if i < E.ID_MAX_SIZE - 1 then
        Char.ofNat ('a'.toNat + rand i % ('z'.toNat - 'a'.toNat + 1)) else stack i) := by
  simp [fresh_id, List.getElem?_map, List.getElem?_range hi]

/-! ## The claims -/

/-- C1. Length lockstep: from a layer whose position, colour and identifier
sequences have one length, every call of point_layer_mouse_button and of
point_layer_keyboard (any event, any branch) gives a layer whose three
sequences again have one length; and every layer that
create_point_layer_from_line_stream returns has three sequences of one
length. -/
theorem C1_length_lockstep {F Color Camera : Type} (E : Ext F Color Camera)
    (s : PointLayer F Color) (h : Lockstep s) :
    (∀ (event : SDL_MouseButtonEvent) (camera : Camera) (color : Color)
        (rand : Nat → Nat) (stack : Nat → Char),
        Lockstep (point_layer_mouse_button E s event camera color rand stack).2) ∧
    (∀ event : SDL_KeyboardEvent, Lockstep (point_layer_keyboard s event).2) ∧
    (∀ (alloc : Alloc) (stack : Stack F) (line_stream : List (List Char))
        (L : PointLayer F Color),
        create_point_layer_from_line_stream E alloc stack line_stream = .layer L →
        Lockstep L) :=
  ⟨fun event camera color rand stack => mouse_lockstep E s h event camera color rand stack,
   fun event => keyboard_lockstep s h event,
   fun alloc stack line_stream L hL => create_lockstep E alloc stack line_stream L hL⟩

/-- C1 at the sample layer: the delete key on a selected point keeps the
three sequences in step. -/
theorem C1_length_lockstep_witness :
    Lockstep (sampleLayer 0) ∧
    Lockstep (point_layer_keyboard (sampleLayer 0) delete_press).2 :=
  ⟨by decide, (C1_length_lockstep sampleExt (sampleLayer 0) (by decide)).2.1 delete_press⟩

/-- C2. Selection validity on reachable states: from any layer whose
selection is -1, as every freshly loaded layer has it, after any finite sequence
of point_layer_mouse_button and point_layer_keyboard calls the selection is
-1 or an index with 0 <= selected < point count. -/
theorem C2_selection_valid_reachable {F Color Camera : Type} (E : Ext F Color Camera)
    (s0 : PointLayer F Color) (h0 : s0.selected = -1)
    (inputs : List (Input Color Camera)) :
    SelectionValid (run_inputs E s0 inputs) :=
  run_inputs_selection_valid E s0 (Or.inl h0) inputs

/-- C2 at the sample layer: select the first point, add a point elsewhere,
delete, select again. -/
theorem C2_selection_valid_reachable_witness :
    (sampleLayer (-1)).selected = -1 ∧
    SelectionValid (run_inputs sampleExt (sampleLayer (-1))
      [.mouse (left_press 2 2) () 0 (fun _ => 0) (fun _ => 'x'),
       .mouse (left_press 50 50) () 7 (fun _ => 0) (fun _ => 'x'),
       .keyboard delete_press,
       .mouse (left_press 99 99) () 0 (fun _ => 0) (fun _ => 'x')]) :=
  ⟨by decide, C2_selection_valid_reachable sampleExt (sampleLayer (-1)) (by decide) _⟩

/-- C3. Delete with a valid selection: on a layer with N points (N within the
range of the C int that holds the count), three sequences of one length and
selection k with 0 <= k < N, a delete key press gives a layer where each of
the three sequences has N-1 entries, entries at indices below k are
unchanged, the entry formerly at index j+1 is at index j for every j >= k,
and the selection is -1. -/
theorem C3_delete_valid_selection {F Color : Type} (s : PointLayer F Color)
    (event : SDL_KeyboardEvent) (hev : IsDeletePress event) (hl : Lockstep s)
    (k : Nat) (hsel : s.selected = (k : Int)) (hk : k < s.points.length)
    (hN : s.points.length < 2 ^ 31) :
    (point_layer_keyboard s event).2.points.length = s.points.length - 1 ∧
    (point_layer_keyboard s event).2.colors.length = s.points.length - 1 ∧
    (point_layer_keyboard s event).2.ids.length = s.points.length - 1 ∧
    (∀ j, j < k →
      (point_layer_keyboard s event).2.points[j]? = s.points[j]? ∧
      (point_layer_keyboard s event).2.colors[j]? = s.colors[j]? ∧
      (point_layer_keyboard s event).2.ids[j]? = s.ids[j]?) ∧
    (∀ j, k ≤ j →
      (point_layer_keyboard s event).2.points[j]? = s.points[j + 1]? ∧
      (point_layer_keyboard s event).2.colors[j]? = s.colors[j + 1]? ∧
      (point_layer_keyboard s event).2.ids[j]? = s.ids[j + 1]?) ∧
    (point_layer_keyboard s event).2.selected = -1 := by
  have hvalid : 0 ≤ s.selected ∧ s.selected < int_of_size (dynarray_count s.points) := by
    rw [dynarray_count, int_of_size_of_lt _ hN, hsel]
    omega
  have hc : k < s.colors.length := hl.1 ▸ hk
  have hi : k < s.ids.length := hl.2 ▸ hc
  rw [keyboard_of_valid s event hev hvalid, hsel, Int.toNat_ofNat]
  refine ⟨?_, ?_, ?_, ?_, ?_, rfl⟩
  · simp only [List.length_eraseIdx, if_pos hk]
  · simp only [List.length_eraseIdx, if_pos hc, hl.1]
  · simp only [List.length_eraseIdx, if_pos hi, hl.1, hl.2]
  · intro j hj
    exact ⟨List.getElem?_eraseIdx_of_lt _ _ _ hj, List.getElem?_eraseIdx_of_lt _ _ _ hj,
      List.getElem?_eraseIdx_of_lt _ _ _ hj⟩
  · intro j hj
    exact ⟨List.getElem?_eraseIdx_of_ge _ _ _ hj, List.getElem?_eraseIdx_of_ge _ _ _ hj,
      List.getElem?_eraseIdx_of_ge _ _ _ hj⟩

/-- C3 at the sample layer with its first point selected. -/
theorem C3_delete_valid_selection_witness :
    (point_layer_keyboard (sampleLayer 0) delete_press).2.points.length = 1 ∧
    (point_layer_keyboard (sampleLayer 0) delete_press).2.points[0]? =
      (sampleLayer 0).points[1]? ∧
    (point_layer_keyboard (sampleLayer 0) delete_press).2.selected = -1 :=
  have h := C3_delete_valid_selection (sampleLayer 0) delete_press (by decide) (by decide)
    0 (by decide) (by decide) (by decide)
  ⟨h.1, (h.2.2.2.2.1 0 (Nat.le_refl 0)).1, h.2.2.2.2.2⟩

/-- C4. Delete without a valid selection: when the selection is not an index
in [0, N), a delete key press leaves the position, colour and identifier
sequences as they are and sets the selection to -1. -/
theorem C4_delete_without_selection {F Color : Type} (s : PointLayer F Color)
    (event : SDL_KeyboardEvent) (hev : IsDeletePress event)
    (hsel : ¬ (0 ≤ s.selected ∧ s.selected < (s.points.length : Int))) :
    (point_layer_keyboard s event).2.points = s.points ∧
    (point_layer_keyboard s event).2.colors = s.colors ∧
    (point_layer_keyboard s event).2.ids = s.ids ∧
    (point_layer_keyboard s event).2.selected = -1 := by
  have hinvalid : ¬ (0 ≤ s.selected ∧ s.selected < int_of_size (dynarray_count s.points)) := by
    intro h
    have := int_of_size_le (dynarray_count s.points)
    simp only [dynarray_count] at h this
    omega
  rw [keyboard_of_invalid s event hev hinvalid]
  exact ⟨rfl, rfl, rfl, rfl⟩

/-- C4 at the sample layer with nothing selected. -/
theorem C4_delete_without_selection_witness :
    (point_layer_keyboard (sampleLayer (-1)) delete_press).2.points =
      (sampleLayer (-1)).points ∧
    (point_layer_keyboard (sampleLayer (-1)) delete_press).2.colors =
      (sampleLayer (-1)).colors ∧
    (point_layer_keyboard (sampleLayer (-1)) delete_press).2.ids =
      (sampleLayer (-1)).ids ∧
    (point_layer_keyboard (sampleLayer (-1)) delete_press).2.selected = -1 :=
  C4_delete_without_selection (sampleLayer (-1)) delete_press (by decide) (by decide)

/-- C5. Press that hits a point: on a layer whose point count is within the
range of the C int that holds it, a left-button press whose camera-mapped
coordinate is at distance strictly below POINT_LAYER_ELEMENT_RADIUS from at
least one existing point sets the selection to an index whose point is within
that radius, inserts nothing, and leaves the point count and the three
sequences unchanged. -/
theorem C5_press_hits_point {F Color Camera : Type} (E : Ext F Color Camera)
    (s : PointLayer F Color) (event : SDL_MouseButtonEvent) (camera : Camera)
    (color : Color) (rand : Nat → Nat) (stack : Nat → Char)
    (hev : IsLeftPress event) (hN : s.points.length < 2 ^ 31)
    (hhit : ∃ q ∈ s.points,
      in_radius E q (E.camera_map_screen camera event.x event.y) = true) :
    ∃ i : Nat,
      (point_layer_mouse_button E s event camera color rand stack).2.selected = (i : Int) ∧
      (∃ q, s.points[i]? = some q ∧
        in_radius E q (E.camera_map_screen camera event.x event.y) = true) ∧
      (point_layer_mouse_button E s event camera color rand stack).2.points = s.points ∧
      (point_layer_mouse_button E s event camera color rand stack).2.colors = s.colors ∧
      (point_layer_mouse_button E s event camera color rand stack).2.ids = s.ids ∧
      point_layer_count (point_layer_mouse_button E s event camera color rand stack).2 =
        point_layer_count s := by
  cases hi : hit_scan E (E.camera_map_screen camera event.x event.y)
      (s.points.take (int_of_size (dynarray_count s.points)).toNat) 0 with
  | none =>
    rw [scan_window s hN] at hi
    obtain ⟨q, hq, hin⟩ := hhit
    have := (hit_scan_none E _ _ 0).mp hi q hq
    rw [hin] at this
    exact absurd this (by simp)
  | some i =>
    rw [mouse_of_hit E s event camera color rand stack hev i hi]
    rw [scan_window s hN] at hi
    obtain ⟨k, hk, hq, _⟩ := (hit_scan_some E _ _ 0 i).mp hi
    have hik : i = k := by omega
    subst hik
    exact ⟨i, rfl, hq, rfl, rfl, rfl, rfl⟩

/-- C5 at the sample layer: a press at (2,2) is within the radius of the
point (0,0). -/
theorem C5_press_hits_point_witness :
    (∃ q ∈ (sampleLayer (-1)).points,
      in_radius sampleExt q (sampleExt.camera_map_screen () 2 2) = true) ∧
    ∃ i : Nat,
      (point_layer_mouse_button sampleExt (sampleLayer (-1)) (left_press 2 2) () 7
        (fun _ => 0) (fun _ => 'x')).2.selected = (i : Int) ∧
      (∃ q, (sampleLayer (-1)).points[i]? = some q ∧
        in_radius sampleExt q (sampleExt.camera_map_screen () 2 2) = true) ∧
      (point_layer_mouse_button sampleExt (sampleLayer (-1)) (left_press 2 2) () 7
        (fun _ => 0) (fun _ => 'x')).2.points = (sampleLayer (-1)).points ∧
      (point_layer_mouse_button sampleExt (sampleLayer (-1)) (left_press 2 2) () 7
        (fun _ => 0) (fun _ => 'x')).2.colors = (sampleLayer (-1)).colors ∧
      (point_layer_mouse_button sampleExt (sampleLayer (-1)) (left_press 2 2) () 7
        (fun _ => 0) (fun _ => 'x')).2.ids = (sampleLayer (-1)).ids ∧
      point_layer_count (point_layer_mouse_button sampleExt (sampleLayer (-1))
        (left_press 2 2) () 7 (fun _ => 0) (fun _ => 'x')).2 =
        point_layer_count (sampleLayer (-1)) :=
  ⟨⟨⟨0, 0⟩, by decide, by decide⟩,
   C5_press_hits_point sampleExt (sampleLayer (-1)) (left_press 2 2) () 7
     (fun _ => 0) (fun _ => 'x') (by decide) (by decide) ⟨⟨0, 0⟩, by decide, by decide⟩⟩

/-- C6. First found wins: on a layer whose point count is within the range
of the C int that holds it, after a left-button press the selection is the
least index i whose point is at distance below the element radius from the
mapped press coordinate, whatever other points of larger index are within
the radius and however close they are. -/
theorem C6_first_found_wins {F Color Camera : Type} (E : Ext F Color Camera)
    (s : PointLayer F Color) (event : SDL_MouseButtonEvent) (camera : Camera)
    (color : Color) (rand : Nat → Nat) (stack : Nat → Char)
    (hev : IsLeftPress event) (hN : s.points.length < 2 ^ 31)
    (i : Nat) (q : Point F) (hq : s.points[i]? = some q)
    (hin : in_radius E q (E.camera_map_screen camera event.x event.y) = true)
    (hmin : ∀ j, j < i → ∀ q1, s.points[j]? = some q1 →
      in_radius E q1 (E.camera_map_screen camera event.x event.y) = false) :
    (point_layer_mouse_button E s event camera color rand stack).2.selected = (i : Int) := by
  have hi : hit_scan E (E.camera_map_screen camera event.x event.y)
      (s.points.take (int_of_size (dynarray_count s.points)).toNat) 0 = some i := by
    rw [scan_window s hN]
    exact (hit_scan_some E _ _ 0 i).mpr ⟨i, by omega, ⟨q, hq, hin⟩, hmin⟩
  rw [mouse_of_hit E s event camera color rand stack hev i hi]

/-- C6 at a layer with (6,0) at index 0 and (1,0) at index 1: a press at
(0,0) is within the radius of both and selects index 0, the farther one. -/
theorem C6_first_found_wins_witness :
    in_radius sampleExt (⟨1, 0⟩ : Point Int) (sampleExt.camera_map_screen () 0 0) = true ∧
    (point_layer_mouse_button sampleExt overlapLayer (left_press 0 0) () 7
      (fun _ => 0) (fun _ => 'x')).2.selected = ((0 : Nat) : Int) :=
  ⟨by decide,
   C6_first_found_wins sampleExt overlapLayer (left_press 0 0) () 7
     (fun _ => 0) (fun _ => 'x') (by decide) (by decide) 0 ⟨6, 0⟩ (by decide) (by decide)
     (fun j hj => absurd hj (Nat.not_lt_zero j))⟩

/-- C7. Press that misses every point: on a layer with N points and three
sequences of one length, a left-button press whose mapped coordinate is not
at distance strictly below the element radius from any existing point gives
a layer with N+1 points whose first N entries in all three sequences are
unchanged, whose entry at index N is the mapped coordinate, the
caller-supplied colour and the generated identifier, and whose selection is
the one before the call. -/
theorem C7_press_misses_all {F Color Camera : Type} (E : Ext F Color Camera)
    (s : PointLayer F Color) (event : SDL_MouseButtonEvent) (camera : Camera)
    (color : Color) (rand : Nat → Nat) (stack : Nat → Char)
    (hev : IsLeftPress event) (hl : Lockstep s)
    (hmiss : ∀ q ∈ s.points,
      in_radius E q (E.camera_map_screen camera event.x event.y) = false) :
    point_layer_count (point_layer_mouse_button E s event camera color rand stack).2 =
      point_layer_count s + 1 ∧
    (point_layer_mouse_button E s event camera color rand stack).2.points =
      s.points ++ [E.camera_map_screen camera event.x event.y] ∧
    (point_layer_mouse_button E s event camera color rand stack).2.colors =
      s.colors ++ [color] ∧
    (point_layer_mouse_button E s event camera color rand stack).2.ids =
      s.ids ++ [fresh_id E rand stack] ∧
    (point_layer_mouse_button E s event camera color rand stack).2.points[point_layer_count s]? =
      some (E.camera_map_screen camera event.x event.y) ∧
    (point_layer_mouse_button E s event camera color rand stack).2.colors[point_layer_count s]? =
      some color ∧
    (point_layer_mouse_button E s event camera color rand stack).2.selected = s.selected := by
  have hi : hit_scan E (E.camera_map_screen camera event.x event.y)
      (s.points.take (int_of_size (dynarray_count s.points)).toNat) 0 = none :=
    (hit_scan_none E _ _ 0).mpr fun q hq => hmiss q (List.mem_of_mem_take hq)
  rw [mouse_of_miss E s event camera color rand stack hev hi]
  refine ⟨?_, rfl, rfl, rfl, ?_, ?_, rfl⟩
  · simp [point_layer_count, dynarray_count]
  · simp [point_layer_count, dynarray_count]
  · simp [point_layer_count, dynarray_count, hl.1]

/-- C7 at the sample layer: a press at (10,0) is at distance exactly 10 from
the point (0,0), which is a miss, so a third point is appended. -/
theorem C7_press_misses_all_witness :
    sampleExt.vec_length (sampleExt.vec_sub ⟨0, 0⟩ (sampleExt.camera_map_screen () 10 0)) =
      POINT_LAYER_ELEMENT_RADIUS sampleExt ∧
    (point_layer_mouse_button sampleExt (sampleLayer 1) (left_press 10 0) () 7
      (fun _ => 0) (fun _ => 'x')).2.points = [⟨0, 0⟩, ⟨100, 100⟩, ⟨10, 0⟩] ∧
    (point_layer_mouse_button sampleExt (sampleLayer 1) (left_press 10 0) () 7
      (fun _ => 0) (fun _ => 'x')).2.colors = [0xff0000, 0x00ff00, 7] ∧
    (point_layer_mouse_button sampleExt (sampleLayer 1) (left_press 10 0) () 7
      (fun _ => 0) (fun _ => 'x')).2.selected = 1 :=
  have h := C7_press_misses_all sampleExt (sampleLayer 1) (left_press 10 0) () 7
    (fun _ => 0) (fun _ => 'x') (by decide) (by decide) (by decide)
  ⟨by decide, h.2.1, h.2.2.1, h.2.2.2.2.2.2⟩

/-- C8. Ignored events are no-ops: point_layer_mouse_button on an event that
is not a left-button mouse-button-down, and point_layer_keyboard on an event
that is not a key-down of the delete key, return 0 and leave the three
sequences and the selection as they are. -/
theorem C8_ignored_events_noop {F Color Camera : Type} (E : Ext F Color Camera)
    (s : PointLayer F Color) :
    (∀ (event : SDL_MouseButtonEvent) (camera : Camera) (color : Color)
        (rand : Nat → Nat) (stack : Nat → Char),
        ¬ (event.type = SDL_MOUSEBUTTONDOWN ∧ event.button = SDL_BUTTON_LEFT) →
        point_layer_mouse_button E s event camera color rand stack = (0, s)) ∧
    (∀ event : SDL_KeyboardEvent,
        ¬ (event.type = SDL_KEYDOWN ∧ event.sym = SDLK_DELETE) →
        point_layer_keyboard s event = (0, s)) :=
  ⟨fun event camera color rand stack hev =>
      mouse_of_ignored E s event camera color rand stack hev,
   fun event hev => keyboard_of_ignored s event hev⟩

/-- C8 at the sample layer: a right-button press and a key-up of the delete
key change nothing. -/
theorem C8_ignored_events_noop_witness :
    point_layer_mouse_button sampleExt (sampleLayer 1)
      ⟨SDL_MOUSEBUTTONDOWN, 3, 2, 2⟩ () 7 (fun _ => 0) (fun _ => 'x') = (0, sampleLayer 1) ∧
    point_layer_keyboard (sampleLayer 1) ⟨0x301, SDLK_DELETE⟩ = (0, sampleLayer 1) :=
  ⟨(C8_ignored_events_noop sampleExt (sampleLayer 1)).1 ⟨SDL_MOUSEBUTTONDOWN, 3, 2, 2⟩ () 7
      (fun _ => 0) (fun _ => 'x') (by decide),
   (C8_ignored_events_noop sampleExt (sampleLayer 1)).2 ⟨0x301, SDLK_DELETE⟩ (by decide)⟩

/-- C9. Load of valid input: when the four allocations succeed and the stream
starts with a well-formed count line declaring N (below 2^64, the range of
the size_t that holds it) followed by N well-formed point lines,
create_point_layer_from_line_stream returns a layer with point count N and
selection -1 whose positions, colours (hexstr of the colour token) and
identifiers (as C strings) are the decoded values of the point lines in file
order; for N = 0 the layer is empty. -/
theorem C9_load_valid_input {F Color Camera : Type} (E : Ext F Color Camera)
    (alloc : Alloc)
    (halloc : alloc.point_layer = true ∧ alloc.points = true ∧
      alloc.colors = true ∧ alloc.ids = true)
    (stack : Stack F) (l : CountLine) (hl : l.WellFormed)
    (pls : List (PointLine F)) (hpls : ∀ p ∈ pls, p.WellFormed E)
    (hN : l.count = pls.length) (h64 : pls.length < 2 ^ 64)
    (rest : List (List Char)) :
    ∃ L, create_point_layer_from_line_stream E alloc stack
        (l.text :: (pls.map PointLine.text ++ rest)) = .layer L ∧
      point_layer_count L = pls.length ∧
      L.selected = -1 ∧
      L.points = pls.map (fun p => vec p.x p.y) ∧
      L.colors = pls.map (fun p => E.hexstr p.color) ∧
      L.ids.map cstr = pls.map (fun p => p.id) ∧
      (pls.length = 0 → L = ⟨[], [], [], -1⟩) := by
  obtain ⟨L, hL, hsel, hpts, hcol, hids⟩ := load_points_well_formed E pls hpls rest
    { color_name := (List.range 7).map stack.color_name
      id := (List.range E.ID_MAX_SIZE).map stack.id
      x := stack.x
      y := stack.y }
    ⟨[], [], [], -1⟩
  refine ⟨L, ?_, ?_, hsel, by simpa using hpts, by simpa using hcol, by simpa using hids, ?_⟩
  · unfold create_point_layer_from_line_stream
    rw [if_neg (by simp [halloc.1]), if_neg (by simp [halloc.2.1]),
      if_neg (by simp [halloc.2.2.1]), if_neg (by simp [halloc.2.2.2])]
    simp only [line_stream_next, sscanf_lu_well_formed l hl (hN ▸ h64) 0]
    rw [if_neg (by decide), hN]
    exact hL
  · simp [point_layer_count, dynarray_count, hpts]
  · intro h0
    have hnil : pls = [] := List.length_eq_zero.mp h0
    subst hnil
    simpa [load_points] using hL.symm

/-- C9 at the scenario input: the count line "2" and the lines of the points
(0,0) red and (100,100) green. -/
theorem C9_load_valid_input_witness :
    sampleCountLine.WellFormed ∧
    (∀ p ∈ samplePointLines, p.WellFormed sampleExt) ∧
    sampleCountLine.text :: (samplePointLines.map PointLine.text ++ []) = sampleStream ∧
    ∃ L, create_point_layer_from_line_stream sampleExt allocAll sampleStack
        (sampleCountLine.text :: (samplePointLines.map PointLine.text ++ [])) = .layer L ∧
      point_layer_count L = samplePointLines.length ∧
      L.selected = -1 ∧
      L.points = samplePointLines.map (fun p => vec p.x p.y) ∧
      L.colors = samplePointLines.map (fun p => sampleExt.hexstr p.color) ∧
      L.ids.map cstr = samplePointLines.map (fun p => p.id) ∧
      (samplePointLines.length = 0 → L = ⟨[], [], [], -1⟩) :=
  ⟨sampleCountLine_well_formed, samplePointLines_well_formed, by decide,
   C9_load_valid_input sampleExt allocAll (by decide) sampleStack sampleCountLine
     sampleCountLine_well_formed samplePointLines samplePointLines_well_formed
     (by decide) (by decide) []⟩

/-- C10. The loader on a malformed point line: a second point line with a
coordinate that is no number makes sscanf return 1, one with no colour token
makes it return 3; neither is below 0, so the loader does not return NULL:
it returns a layer of two points whose second point repeats values of the
first line. -/
theorem C10_malformed_line_accepted :
    create_point_layer_from_line_stream sampleExt allocAll sampleStack badCoordinateStream =
      .layer ⟨[⟨0, 0⟩, ⟨0, 0⟩], [0xff0000, 0xff0000],
        [['i', 'd', '1', NUL, '?', '?', '?', '?'], ['i', 'd', '2', NUL, '?', '?', '?', '?']],
        -1⟩ ∧
    create_point_layer_from_line_stream sampleExt allocAll sampleStack missingColorStream =
      .layer ⟨[⟨0, 0⟩, ⟨100, 100⟩], [0xff0000, 0xff0000],
        [['i', 'd', '1', NUL, '?', '?', '?', '?'], ['i', 'd', '2', NUL, '?', '?', '?', '?']],
        -1⟩ := by
  decide

/-- C11. The loader on a bad count line: on the count line `abc` the call
sscanf(line, "%lu", &count) returns 0, which is not EOF, so the loader does
not return NULL: count stays 0, the loop does not run and an empty layer is
returned, the lines after the count line unread.  On a stream with no line
at all the loader passes NULL to sscanf. -/
theorem C11_bad_count_line_accepted :
    sscanf_lu "abc\n".toList 0 = (0, 0) ∧
    create_point_layer_from_line_stream sampleExt allocAll sampleStack badCountStream =
      .layer ⟨[], [], [], -1⟩ ∧
    create_point_layer_from_line_stream sampleExt allocAll sampleStack [] = .undefined := by
  decide

/-- C12. Render draw sequence: on a layer with N points (N within the range
of the C int that holds the count, three sequences of one length) and a
camera on which every fill succeeds, point_layer_render returns 0 and its
fill calls are, in index order 0..N-1, one fill per point (marker at
points[i], scale 10, colour colors[i]) preceded for the selected point by
the halo (marker at the same position, scale 15, colour
color_invert(colors[i])); the number of fills is N+1 when the selection is a
valid index and N otherwise. -/
theorem C12_render_draw_sequence {F Color Camera Triangle Mat : Type}
    (E : Ext F Color Camera) (G : Gfx F Color Camera Triangle Mat)
    (s : PointLayer F Color) (camera : Camera) (hl : Lockstep s)
    (hN : s.points.length < 2 ^ 31)
    (hfill : ∀ cam t c, 0 ≤ (G.camera_fill_triangle cam t c).1) :
    ∃ r, point_layer_render E G s camera = some r ∧ r.ret = 0 ∧
      r.fills.map (fun f => (f.triangle, f.color)) =
        (List.range s.points.length).flatMap (expected_fills E G s) ∧
      r.fills.length =
        if 0 ≤ s.selected ∧ s.selected < (s.points.length : Int) then s.points.length + 1
        else s.points.length := by
  obtain ⟨camera1, fills, hloop, hmap⟩ :=
    render_loop_steady E G s _ camera (render_indices_in_range s hl) hfill
  have hn : (int_of_size (dynarray_count s.points)).toNat = s.points.length := by
    rw [dynarray_count, int_of_size_of_lt _ hN, Int.toNat_ofNat]
  rw [hn] at hloop hmap
  refine ⟨⟨0, s, camera1, fills⟩, ?_, rfl, hmap, ?_⟩
  · rw [point_layer_render_eq, hn, hloop]
    rfl
  · have hlen := congrArg List.length hmap
    rw [List.length_map] at hlen
    show fills.length = _
    rw [hlen]
    exact expected_fills_total E G s s.points.length (Nat.le_refl _) (Nat.le_of_eq hl.1)

/-- C12 at the sample layer with its first point selected: three fills, the
halo of (0,0), the marker of (0,0) and the marker of (100,100). -/
theorem C12_render_draw_sequence_witness :
    Lockstep (sampleLayer 0) ∧
    ∃ r, point_layer_render drawExt steadyGfx (sampleLayer 0) 0 = some r ∧ r.ret = 0 ∧
      r.fills.map (fun f => (f.triangle, f.color)) =
        (List.range (sampleLayer 0).points.length).flatMap
          (expected_fills drawExt steadyGfx (sampleLayer 0)) ∧
      r.fills.length =
        if 0 ≤ (sampleLayer 0).selected ∧
            (sampleLayer 0).selected < ((sampleLayer 0).points.length : Int) then
          (sampleLayer 0).points.length + 1
        else (sampleLayer 0).points.length :=
  ⟨by decide,
   C12_render_draw_sequence drawExt steadyGfx (sampleLayer 0) 0 (by decide) (by decide)
     (fun _ _ _ => Int.le_refl 0)⟩

/-- C13. Render aborts on the first draw failure: on a layer whose three
sequences have one length, point_layer_render returns -1 exactly when some
fill call it made failed (returned a negative int) and 0 exactly when every
fill call it made succeeded; when it returns -1 the failing call is the last
call made and every call before it succeeded. -/
theorem C13_render_aborts_on_failure {F Color Camera Triangle Mat : Type}
    (E : Ext F Color Camera) (G : Gfx F Color Camera Triangle Mat)
    (s : PointLayer F Color) (camera : Camera) (hl : Lockstep s) :
    ∃ r, point_layer_render E G s camera = some r ∧
      (r.ret = -1 ↔ ∃ f ∈ r.fills, f.result < 0) ∧
      (r.ret = 0 ↔ ∀ f ∈ r.fills, 0 ≤ f.result) ∧
      (r.ret = -1 → ∃ init last, r.fills = init ++ [last] ∧ last.result < 0 ∧
        ∀ f ∈ init, 0 ≤ f.result) := by
  obtain ⟨r, hr, _, hcase⟩ := render_outcome E G s camera hl
  refine ⟨r, hr, ?_⟩
  rcases hcase with ⟨hret, hall⟩ | ⟨hret, init, last, hsplit, hinit, hlast⟩
  · refine ⟨?_, ?_, ?_⟩
    · constructor
      · intro h; rw [hret] at h; exact absurd h (by decide)
      · rintro ⟨f, hf, hneg⟩
        have := hall f hf
        omega
    · exact ⟨fun _ => hall, fun _ => hret⟩
    · intro h; rw [hret] at h; exact absurd h (by decide)
  · have hmem : last ∈ r.fills := by rw [hsplit]; simp
    refine ⟨?_, ?_, ?_⟩
    · exact ⟨fun _ => ⟨last, hmem, hlast⟩, fun _ => hret⟩
    · constructor
      · intro h; rw [hret] at h; exact absurd h (by decide)
      · intro h
        have := h last hmem
        omega
    · exact fun _ => ⟨init, last, hsplit, hlast, hinit⟩

/-- C13 at the sample layer with its first point selected and a camera that
accepts one fill: the halo is drawn, the marker of the same point fails, and
the point (100,100) is not drawn. -/
theorem C13_render_aborts_on_failure_witness :
    Lockstep (sampleLayer 0) ∧
    (point_layer_render drawExt sampleGfx (sampleLayer 0) 1).map
        (fun r => (r.ret, r.fills)) =
      some (-1, [⟨⟨0, 0, 15⟩, 0x00ffff, 0⟩, ⟨⟨0, 0, 10⟩, 0xff0000, -1⟩]) ∧
    ∃ r, point_layer_render drawExt sampleGfx (sampleLayer 0) 1 = some r ∧
      (r.ret = -1 ↔ ∃ f ∈ r.fills, f.result < 0) ∧
      (r.ret = 0 ↔ ∀ f ∈ r.fills, 0 ≤ f.result) ∧
      (r.ret = -1 → ∃ init last, r.fills = init ++ [last] ∧ last.result < 0 ∧
        ∀ f ∈ init, 0 ≤ f.result) :=
  ⟨by decide, by decide,
   C13_render_aborts_on_failure drawExt sampleGfx (sampleLayer 0) 1 (by decide)⟩

/-- C14. Select-then-delete removes the clicked point: on a layer with N
points (N within the range of the C int that holds the count, three
sequences of one length), a left-button press whose mapped coordinate is
within the element radius of at least one point, followed by a delete key
press, gives the layer with the entry at the least in-radius index k removed
from all three sequences, N-1 entries in each, and selection -1. -/
theorem C14_select_then_delete {F Color Camera : Type} (E : Ext F Color Camera)
    (s : PointLayer F Color) (event : SDL_MouseButtonEvent) (camera : Camera)
    (color : Color) (rand : Nat → Nat) (stack : Nat → Char) (key : SDL_KeyboardEvent)
    (hev : IsLeftPress event) (hkey : IsDeletePress key) (hl : Lockstep s)
    (hN : s.points.length < 2 ^ 31)
    (hhit : ∃ q ∈ s.points,
      in_radius E q (E.camera_map_screen camera event.x event.y) = true) :
    ∃ k : Nat,
      (∃ q, s.points[k]? = some q ∧
        in_radius E q (E.camera_map_screen camera event.x event.y) = true) ∧
      (∀ j, j < k → ∀ q, s.points[j]? = some q →
        in_radius E q (E.camera_map_screen camera event.x event.y) = false) ∧
      point_layer_keyboard
          (point_layer_mouse_button E s event camera color rand stack).2 key =
        (0, { points := s.points.eraseIdx k
              colors := s.colors.eraseIdx k
              ids := s.ids.eraseIdx k
              selected := -1 }) ∧
      (s.points.eraseIdx k).length = s.points.length - 1 ∧
      (s.colors.eraseIdx k).length = s.points.length - 1 ∧
      (s.ids.eraseIdx k).length = s.points.length - 1 := by
  cases hi : hit_scan E (E.camera_map_screen camera event.x event.y)
      (s.points.take (int_of_size (dynarray_count s.points)).toNat) 0 with
  | none =>
    rw [scan_window s hN] at hi
    obtain ⟨q, hq, hin⟩ := hhit
    have := (hit_scan_none E _ _ 0).mp hi q hq
    rw [hin] at this
    exact absurd this (by simp)
  | some i =>
    rw [mouse_of_hit E s event camera color rand stack hev i hi]
    rw [scan_window s hN] at hi
    obtain ⟨k, hk, hq, hmin⟩ := (hit_scan_some E _ _ 0 i).mp hi
    have hik : i = k := by omega
    subst hik
    obtain ⟨q, hqi, hin⟩ := hq
    have hlt : i < s.points.length := (List.getElem?_eq_some_iff.mp hqi).1
    have hc : i < s.colors.length := hl.1 ▸ hlt
    have hids : i < s.ids.length := hl.2 ▸ hc
    have hvalid : 0 ≤ (i : Int) ∧ (i : Int) < int_of_size (dynarray_count s.points) := by
      rw [dynarray_count, int_of_size_of_lt _ hN]
      omega
    refine ⟨i, ⟨q, hqi, hin⟩, hmin, ?_, ?_, ?_, ?_⟩
    · rw [keyboard_of_valid _ key hkey hvalid]
      simp only [Int.toNat_ofNat]
    · simp only [List.length_eraseIdx, if_pos hlt]
    · simp only [List.length_eraseIdx, if_pos hc, hl.1]
    · simp only [List.length_eraseIdx, if_pos hids, hl.1, hl.2]

/-- C14 at the scenario: points (0,0) and (100,100), a press at (2,2) and
the delete key leave the single point (100,100) at index 0. -/
theorem C14_select_then_delete_witness :
    (point_layer_keyboard
        (point_layer_mouse_button sampleExt (sampleLayer (-1)) (left_press 2 2) () 7
          (fun _ => 0) (fun _ => 'x')).2 delete_press).2 =
      ⟨[⟨100, 100⟩], [0x00ff00], ["id2".toList], -1⟩ ∧
    ∃ k : Nat,
      (∃ q, (sampleLayer (-1)).points[k]? = some q ∧
        in_radius sampleExt q (sampleExt.camera_map_screen () 2 2) = true) ∧
      (∀ j, j < k → ∀ q, (sampleLayer (-1)).points[j]? = some q →
        in_radius sampleExt q (sampleExt.camera_map_screen () 2 2) = false) ∧
      point_layer_keyboard
          (point_layer_mouse_button sampleExt (sampleLayer (-1)) (left_press 2 2) () 7
            (fun _ => 0) (fun _ => 'x')).2 delete_press =
        (0, { points := (sampleLayer (-1)).points.eraseIdx k
              colors := (sampleLayer (-1)).colors.eraseIdx k
              ids := (sampleLayer (-1)).ids.eraseIdx k
              selected := -1 }) ∧
      ((sampleLayer (-1)).points.eraseIdx k).length = (sampleLayer (-1)).points.length - 1 ∧
      ((sampleLayer (-1)).colors.eraseIdx k).length = (sampleLayer (-1)).points.length - 1 ∧
      ((sampleLayer (-1)).ids.eraseIdx k).length = (sampleLayer (-1)).points.length - 1 :=
  ⟨by decide,
   C14_select_then_delete sampleExt (sampleLayer (-1)) (left_press 2 2) () 7
     (fun _ => 0) (fun _ => 'x') delete_press (by decide) (by decide) (by decide)
     (by decide) ⟨⟨0, 0⟩, by decide, by decide⟩⟩

/-- C15. Render is read-only: whenever point_layer_render returns, with 0 or
with -1, the layer after the call (point count, position, colour and
identifier sequences, selection index) is the layer before the call; and on
a layer whose three sequences have one length it does return. -/
theorem C15_render_read_only {F Color Camera Triangle Mat : Type}
    (E : Ext F Color Camera) (G : Gfx F Color Camera Triangle Mat)
    (s : PointLayer F Color) (camera : Camera) :
    (∀ r, point_layer_render E G s camera = some r →
      (r.ret = 0 ∨ r.ret = -1) ∧
      point_layer_count r.point_layer = point_layer_count s ∧
      r.point_layer.points = s.points ∧ r.point_layer.colors = s.colors ∧
      r.point_layer.ids = s.ids ∧ r.point_layer.selected = s.selected) ∧
    (Lockstep s → ∃ r, point_layer_render E G s camera = some r) := by
  constructor
  · intro r hr
    have hsame := render_layer_unchanged E G s camera r hr
    refine ⟨?_, by rw [hsame], by rw [hsame], by rw [hsame], by rw [hsame], by rw [hsame]⟩
    rw [point_layer_render_eq] at hr
    cases hloop : render_loop E G s
        (List.range (int_of_size (dynarray_count s.points)).toNat) camera with
    | none =>
      rw [hloop] at hr
      exact absurd hr (by simp)
    | some out =>
      rw [hloop] at hr
      simp only [Option.map_some', Option.some.injEq] at hr
      have := render_loop_ret E G s _ camera out hloop
      rw [← hr]
      exact this
  · intro hl
    obtain ⟨r, hr, _⟩ := render_outcome E G s camera hl
    exact ⟨r, hr⟩

/-- C15 at the sample layer: a render that succeeds and a render that fails
both leave the layer as it was. -/
theorem C15_render_read_only_witness :
    (point_layer_render drawExt sampleGfx (sampleLayer 0) 5).map
        (fun r => (r.ret, r.point_layer)) = some (0, sampleLayer 0) ∧
    (point_layer_render drawExt sampleGfx (sampleLayer 0) 1).map
        (fun r => (r.ret, r.point_layer)) = some (-1, sampleLayer 0) ∧
    ∃ r, point_layer_render drawExt sampleGfx (sampleLayer 0) 1 = some r :=
  ⟨by decide, by decide,
   (C15_render_read_only drawExt sampleGfx (sampleLayer 0) 1).2 (by decide)⟩

/-- C16. Generated identifier alphabet: when point_layer_mouse_button appends
a point, the identifier pushed is a buffer of ID_MAX_SIZE bytes whose bytes
0 .. ID_MAX_SIZE - 2 are 'a' + r % ('z' - 'a' + 1) for the values r that
rand() returned, each a lowercase letter, and whose last byte is not
generated; for every natural number r the value 'a' + r % ('z' - 'a' + 1) is
in 'a'..'z'.  The number ID_MAX_SIZE - 1 of generated characters depends on
neither the layer nor the event. -/
theorem C16_generated_id_alphabet {F Color Camera : Type} (E : Ext F Color Camera)
    (s : PointLayer F Color) (event : SDL_MouseButtonEvent) (camera : Camera)
    (color : Color) (rand : Nat → Nat) (stack : Nat → Char)
    (hev : IsLeftPress event)
    (hmiss : ∀ q ∈ s.points,
      in_radius E q (E.camera_map_screen camera event.x event.y) = false) :
    (∃ id, (point_layer_mouse_button E s event camera color rand stack).2.ids =
        s.ids ++ [id] ∧
      id.length = E.ID_MAX_SIZE ∧
      (∀ i, i < E.ID_MAX_SIZE - 1 →
        id[i]? = some (Char.ofNat ('a'.toNat + rand i % ('z'.toNat - 'a'.toNat + 1))) ∧
        'a' ≤ Char.ofNat ('a'.toNat + rand i % ('z'.toNat - 'a'.toNat + 1)) ∧
        Char.ofNat ('a'.toNat + rand i % ('z'.toNat - 'a'.toNat + 1)) ≤ 'z') ∧
      id[E.ID_MAX_SIZE - 1]? = some (stack (E.ID_MAX_SIZE - 1))) ∧
    ∀ r : Nat,
      'a' ≤ Char.ofNat ('a'.toNat + r % ('z'.toNat - 'a'.toNat + 1)) ∧
      Char.ofNat ('a'.toNat + r % ('z'.toNat - 'a'.toNat + 1)) ≤ 'z' := by
  have hi : hit_scan E (E.camera_map_screen camera event.x event.y)
      (s.points.take (int_of_size (dynarray_count s.points)).toNat) 0 = none :=
    (hit_scan_none E _ _ 0).mpr fun q hq => hmiss q (List.mem_of_mem_take hq)
  have hpos := E.ID_MAX_SIZE_pos
  refine ⟨⟨fresh_id E rand stack, ?_, fresh_id_length E rand stack, ?_, ?_⟩, generated_letter⟩
  · rw [mouse_of_miss E s event camera color rand stack hev hi]
  · intro i hlt
    refine ⟨?_, generated_letter (rand i)⟩
    rw [fresh_id_getElem? E rand stack i (by omega), if_pos hlt]
  · rw [fresh_id_getElem? E rand stack _ (by omega), if_neg (by omega)]

/-- C16 at the sample layer: a press at (50,50) with rand() returning
0, 1, 2, ... appends the identifier abcdefg followed by the byte the stack
held. -/
theorem C16_generated_id_alphabet_witness :
    (point_layer_mouse_button sampleExt (sampleLayer (-1)) (left_press 50 50) () 7
      (fun i => i) (fun _ => 'x')).2.ids =
      ["id1".toList, "id2".toList, "abcdefgx".toList] ∧
    ∃ id, (point_layer_mouse_button sampleExt (sampleLayer (-1)) (left_press 50 50) () 7
        (fun i => i) (fun _ => 'x')).2.ids = (sampleLayer (-1)).ids ++ [id] ∧
      id.length = sampleExt.ID_MAX_SIZE ∧
      (∀ i, i < sampleExt.ID_MAX_SIZE - 1 →
        id[i]? = some (Char.ofNat ('a'.toNat + (fun i => i) i % ('z'.toNat - 'a'.toNat + 1))) ∧
        'a' ≤ Char.ofNat ('a'.toNat + (fun i => i) i % ('z'.toNat - 'a'.toNat + 1)) ∧
        Char.ofNat ('a'.toNat + (fun i => i) i % ('z'.toNat - 'a'.toNat + 1)) ≤ 'z') ∧
      id[sampleExt.ID_MAX_SIZE - 1]? = some ((fun _ => 'x') (sampleExt.ID_MAX_SIZE - 1)) :=
  ⟨by decide,
   (C16_generated_id_alphabet sampleExt (sampleLayer (-1)) (left_press 50 50) () 7
     (fun i => i) (fun _ => 'x') (by decide) (by decide)).1⟩

/-- C17. The delete key is idempotent: for every layer, whatever its
selection, two delete key presses in a row give the same layer as one; the
second press removes no further point. -/
theorem C17_delete_idempotent {F Color : Type} (s : PointLayer F Color)
    (event : SDL_KeyboardEvent) (hev : IsDeletePress event) :
    point_layer_keyboard (point_layer_keyboard s event).2 event =
      point_layer_keyboard s event := by
  have hnone : ∀ t : PointLayer F Color, t.selected = -1 →
      point_layer_keyboard t event = (0, t) := by
    intro t ht
    have hinv : ¬ (0 ≤ t.selected ∧ t.selected < int_of_size (dynarray_count t.points)) := by
      rw [ht]
      omega
    rw [keyboard_of_invalid t event hev hinv]
    cases t
    simp only at ht
    rw [ht]
  by_cases hsel : 0 ≤ s.selected ∧ s.selected < int_of_size (dynarray_count s.points)
  · rw [keyboard_of_valid s event hev hsel]
    exact hnone _ rfl
  · rw [keyboard_of_invalid s event hev hsel]
    exact hnone _ rfl

/-- C17 at the sample layer with its first point selected: the second press
leaves the point (100,100). -/
theorem C17_delete_idempotent_witness :
    (point_layer_keyboard (point_layer_keyboard (sampleLayer 0) delete_press).2
      delete_press).2 = ⟨[⟨100, 100⟩], [0x00ff00], ["id2".toList], -1⟩ ∧
    point_layer_keyboard (point_layer_keyboard (sampleLayer 0) delete_press).2 delete_press =
      point_layer_keyboard (sampleLayer 0) delete_press :=
  ⟨by decide, C17_delete_idempotent (sampleLayer 0) delete_press (by decide)⟩

/-- C18. A newly added point is selectable at its own location: on a layer
with N points (N+1 within the range of the C int that holds the count), after
a left-button press that appends a point (no existing point within the
radius), a second press of the same event through the same camera, for which
the mapped coordinate is within the radius of itself (its distance to itself
being 0), appends nothing and sets the selection to N; the count stays
N+1. -/
theorem C18_added_point_selectable {F Color Camera : Type} (E : Ext F Color Camera)
    (s : PointLayer F Color) (event : SDL_MouseButtonEvent) (camera : Camera)
    (color color2 : Color) (rand rand2 : Nat → Nat) (stack stack2 : Nat → Char)
    (hev : IsLeftPress event) (hN : s.points.length + 1 < 2 ^ 31)
    (hmiss : ∀ q ∈ s.points,
      in_radius E q (E.camera_map_screen camera event.x event.y) = false)
    (hself : in_radius E (E.camera_map_screen camera event.x event.y)
      (E.camera_map_screen camera event.x event.y) = true) :
    point_layer_mouse_button E
        (point_layer_mouse_button E s event camera color rand stack).2
        event camera color2 rand2 stack2 =
      (0, { (point_layer_mouse_button E s event camera color rand stack).2 with
              selected := (s.points.length : Int) }) ∧
    point_layer_count (point_layer_mouse_button E
        (point_layer_mouse_button E s event camera color rand stack).2
        event camera color2 rand2 stack2).2 = point_layer_count s + 1 := by
  have hi : hit_scan E (E.camera_map_screen camera event.x event.y)
      (s.points.take (int_of_size (dynarray_count s.points)).toNat) 0 = none :=
    (hit_scan_none E _ _ 0).mpr fun q hq => hmiss q (List.mem_of_mem_take hq)
  rw [mouse_of_miss E s event camera color rand stack hev hi]
  have hlen : (s.points ++ [E.camera_map_screen camera event.x event.y]).length < 2 ^ 31 := by
    rw [List.length_append, List.length_singleton]
    exact hN
  have hi2 : hit_scan E (E.camera_map_screen camera event.x event.y)
      ((s.points ++ [E.camera_map_screen camera event.x event.y]).take
        (int_of_size (dynarray_count
          (s.points ++ [E.camera_map_screen camera event.x event.y]))).toNat) 0 =
      some s.points.length := by
    rw [dynarray_count, int_of_size_of_lt _ hlen, Int.toNat_ofNat, List.take_length]
    refine (hit_scan_some E _ _ 0 _).mpr ⟨s.points.length, by omega, ⟨_, ?_, hself⟩, ?_⟩
    · simp
    · intro m hm q hq
      rw [List.getElem?_append_left hm] at hq
      obtain ⟨h, e⟩ := List.getElem?_eq_some_iff.mp hq
      exact hmiss q (e ▸ List.getElem_mem h)
  have h2 : point_layer_mouse_button E
      { s with
          points := s.points ++ [E.camera_map_screen camera event.x event.y]
          colors := s.colors ++ [color]
          ids := s.ids ++ [fresh_id E rand stack] }
      event camera color2 rand2 stack2 =
      (0, { points := s.points ++ [E.camera_map_screen camera event.x event.y]
            colors := s.colors ++ [color]
            ids := s.ids ++ [fresh_id E rand stack]
            selected := (s.points.length : Int) }) :=
    mouse_of_hit E _ event camera color2 rand2 stack2 hev s.points.length hi2
  constructor
  · exact h2
  · rw [h2]
    simp only [point_layer_count, dynarray_count, List.length_append, List.length_singleton]

/-- C18 at the sample layer: two presses at (50,50) add one point and select
it, index 2. -/
theorem C18_added_point_selectable_witness :
    (point_layer_mouse_button sampleExt
        (point_layer_mouse_button sampleExt (sampleLayer (-1)) (left_press 50 50) () 7
          (fun _ => 0) (fun _ => 'x')).2
        (left_press 50 50) () 9 (fun _ => 1) (fun _ => 'y')).2.selected = 2 ∧
    point_layer_mouse_button sampleExt
        (point_layer_mouse_button sampleExt (sampleLayer (-1)) (left_press 50 50) () 7
          (fun _ => 0) (fun _ => 'x')).2
        (left_press 50 50) () 9 (fun _ => 1) (fun _ => 'y') =
      (0, { (point_layer_mouse_button sampleExt (sampleLayer (-1)) (left_press 50 50) () 7
              (fun _ => 0) (fun _ => 'x')).2 with
              selected := ((sampleLayer (-1)).points.length : Int) }) ∧
    point_layer_count (point_layer_mouse_button sampleExt
        (point_layer_mouse_button sampleExt (sampleLayer (-1)) (left_press 50 50) () 7
          (fun _ => 0) (fun _ => 'x')).2
        (left_press 50 50) () 9 (fun _ => 1) (fun _ => 'y')).2 =
      point_layer_count (sampleLayer (-1)) + 1 :=
  ⟨by decide,
   C18_added_point_selectable sampleExt (sampleLayer (-1)) (left_press 50 50) () 7 9
     (fun _ => 0) (fun _ => 1) (fun _ => 'x') (fun _ => 'y') (by decide) (by decide)
     (by decide) (by decide)⟩

/-- C19. Hit-testing depends only on positions: for two layers with the same
position sequence, whatever their colour sequences, identifier sequences and
selections, the same left-button press through the same camera either
selects in both, and then the same index, or appends in both. -/
theorem C19_hit_test_positions_only {F Color Camera : Type} (E : Ext F Color Camera)
    (s1 s2 : PointLayer F Color) (event : SDL_MouseButtonEvent) (camera : Camera)
    (color1 color2 : Color) (rand1 rand2 : Nat → Nat) (stack1 stack2 : Nat → Char)
    (hev : IsLeftPress event) (hpts : s1.points = s2.points) :
    (∃ i : Nat,
      point_layer_mouse_button E s1 event camera color1 rand1 stack1 =
        (0, { s1 with selected := (i : Int) }) ∧
      point_layer_mouse_button E s2 event camera color2 rand2 stack2 =
        (0, { s2 with selected := (i : Int) })) ∨
    (point_layer_mouse_button E s1 event camera color1 rand1 stack1 =
        (0, { s1 with
                points := s1.points ++ [E.camera_map_screen camera event.x event.y]
                colors := s1.colors ++ [color1]
                ids := s1.ids ++ [fresh_id E rand1 stack1] }) ∧
      point_layer_mouse_button E s2 event camera color2 rand2 stack2 =
        (0, { s2 with
                points := s2.points ++ [E.camera_map_screen camera event.x event.y]
                colors := s2.colors ++ [color2]
                ids := s2.ids ++ [fresh_id E rand2 stack2] })) := by
  cases hi : hit_scan E (E.camera_map_screen camera event.x event.y)
      (s1.points.take (int_of_size (dynarray_count s1.points)).toNat) 0 with
  | some i =>
    left
    refine ⟨i, mouse_of_hit E s1 event camera color1 rand1 stack1 hev i hi, ?_⟩
    rw [hpts] at hi
    exact mouse_of_hit E s2 event camera color2 rand2 stack2 hev i hi
  | none =>
    right
    refine ⟨mouse_of_miss E s1 event camera color1 rand1 stack1 hev hi, ?_⟩
    rw [hpts] at hi
    exact mouse_of_miss E s2 event camera color2 rand2 stack2 hev hi

/-- C19 at the sample layer and a layer with the same positions, other
colours, other identifiers and another selection: a press at (99,99)
selects index 1 in both. -/
theorem C19_hit_test_positions_only_witness :
    (point_layer_mouse_button sampleExt (sampleLayer (-1)) (left_press 99 99) () 7
      (fun _ => 0) (fun _ => 'x')).2.selected = 1 ∧
    (point_layer_mouse_button sampleExt
      ⟨[⟨0, 0⟩, ⟨100, 100⟩], [1, 2, 3], ["other".toList], 0⟩ (left_press 99 99) () 9
      (fun _ => 1) (fun _ => 'y')).2.selected = 1 ∧
    ((∃ i : Nat,
      point_layer_mouse_button sampleExt (sampleLayer (-1)) (left_press 99 99) () 7
          (fun _ => 0) (fun _ => 'x') =
        (0, { sampleLayer (-1) with selected := (i : Int) }) ∧
      point_layer_mouse_button sampleExt
          ⟨[⟨0, 0⟩, ⟨100, 100⟩], [1, 2, 3], ["other".toList], 0⟩ (left_press 99 99) () 9
          (fun _ => 1) (fun _ => 'y') =
        (0, { (⟨[⟨0, 0⟩, ⟨100, 100⟩], [1, 2, 3], ["other".toList], 0⟩ :
                PointLayer Int Nat) with selected := (i : Int) })) ∨
    (point_layer_mouse_button sampleExt (sampleLayer (-1)) (left_press 99 99) () 7
          (fun _ => 0) (fun _ => 'x') =
        (0, { sampleLayer (-1) with
                points := (sampleLayer (-1)).points ++ [sampleExt.camera_map_screen () 99 99]
                colors := (sampleLayer (-1)).colors ++ [7]
                ids := (sampleLayer (-1)).ids ++ [fresh_id sampleExt (fun _ => 0) (fun _ => 'x')] }) ∧
      point_layer_mouse_button sampleExt
          ⟨[⟨0, 0⟩, ⟨100, 100⟩], [1, 2, 3], ["other".toList], 0⟩ (left_press 99 99) () 9
          (fun _ => 1) (fun _ => 'y') =
        (0, { (⟨[⟨0, 0⟩, ⟨100, 100⟩], [1, 2, 3], ["other".toList], 0⟩ :
                PointLayer Int Nat) with
                points := [⟨0, 0⟩, ⟨100, 100⟩] ++ [sampleExt.camera_map_screen () 99 99]
                colors := [1, 2, 3] ++ [9]
                ids := ["other".toList] ++ [fresh_id sampleExt (fun _ => 1) (fun _ => 'y')] }))) :=
  ⟨by decide, by decide,
   C19_hit_test_positions_only sampleExt (sampleLayer (-1))
     ⟨[⟨0, 0⟩, ⟨100, 100⟩], [1, 2, 3], ["other".toList], 0⟩ (left_press 99 99) () 7 9
     (fun _ => 0) (fun _ => 1) (fun _ => 'x') (fun _ => 'y') (by decide) rfl⟩

end Nothing
